import Mathlib

/-!
Verification of the AgentLog event-logging library (C++ sources under
`src/`) against its natural-language specification.

The development is a shallow embedding: C++ `double` is modelled as a
linearly ordered field parameter `α` (instantiated at `ℚ` where every
operation of the modelled code is exact arithmetic and comparison, and at
`ℝ` where the code applies `tanh`/`sqrt`); machine integers are `Nat`/`Int`
(no modelled operation can overflow 64-bit in the scenarios stated);
`std::chrono` time points and durations are `Int` nanosecond counts
(`duration_t = std::chrono::nanoseconds` in `common.h`); `std::map` /
`std::unordered_map` are association lists or total functions with a
default, matching the C++ `operator[]` value-initialisation; `std::optional`
is `Option`; a C++ `bool` return is `Bool`.

Fields of C++ structs that no modelled operation reads (e.g. `LogEvent`'s
`tags`, `stack_trace`, `predicted_labels`, `Incident.description`'s exact
text where only its presence matters) are carried only where some modelled
operation consults them; omissions are noted at each structure.
-/

namespace AgentLog

/-- Severity levels, from `common.h` (`enum class Severity`). -/
inductive Severity where
  | TRACE
  | DEBUG
  | INFO
  | WARNING
  | ERROR
  | CRITICAL
  | ALERT
deriving DecidableEq, Repr

/-- Mirror of `severity_to_string` in `common.h`. -/
def severity_to_string : Severity → String
  | .TRACE => "TRACE"
  | .DEBUG => "DEBUG"
  | .INFO => "INFO"
  | .WARNING => "WARNING"
  | .ERROR => "ERROR"
  | .CRITICAL => "CRITICAL"
  | .ALERT => "ALERT"

/-- The structured log event of `event.h` (`class LogEvent`), parametric in
the type `α` modelling C++ `double`.  `timestamp` is the
`system_clock::time_point` as a nanosecond count.  `entities`, `metrics`
and `context` are `std::map`s, modelled as their ordered entry lists
(iteration order of the model = list order).  The fields `tags`,
`stack_trace`, `span_id`, `service_instance` and `predicted_labels` are
omitted: no operation modelled in this file reads them. -/
structure LogEvent (α : Type) where
  event_id : Nat
  event_type : String
  timestamp : Int
  severity : Severity
  message : String
  entities : List (String × String)
  metrics : List (String × α)
  context : List (String × String)
  service_name : String
  trace_id : String
  anomaly_score : α
  incident_id : Option String
deriving DecidableEq

/-- A convenient all-empty event for concrete instantiations. -/
def trivEvent : LogEvent ℚ :=
  ⟨0, "", 0, .INFO, "", [], [], [], "", "", 0, none⟩

/-! ### Bounded event queue and `Logger::emit` (logger.cpp)

`EventQueue` (anonymous namespace of `logger.cpp`): a `std::queue`
guarded by a mutex with capacity `max_size_`.  The `shutdown_` flag and the
blocking `pop` are part of the concurrent shutdown protocol; `push`'s
full-queue test and the producer-side counters of `Logger::emit` are the
functional content modelled here. -/

/-- The bounded queue of `logger.cpp` (`class EventQueue`): `queue_` front
is the list head. -/
structure EventQueue where
  queue : List (LogEvent ℚ)
  max_size : Nat
deriving DecidableEq

/-- Mirror of `EventQueue::push`: returns `false` and leaves the queue
unchanged when `queue_.size() >= max_size_`, else appends at the back. -/
def EventQueue.push (q : EventQueue) (e : LogEvent ℚ) : Bool × EventQueue :=
  if q.queue.length ≥ q.max_size then (false, q)
  else (true, { q with queue := q.queue ++ [e] })

/-- Mirror of the non-blocking core of `EventQueue::pop`: removes the front
element when present.  (The condition-variable wait and shutdown flag are
the concurrency wrapper around this step.) -/
def EventQueue.popFront (q : EventQueue) : Option (LogEvent ℚ × EventQueue) :=
  match q.queue with
  | [] => none
  | e :: rest => some (e, { q with queue := rest })

/-- The producer-side counters of `Logger::Stats` touched by `emit`
(`logger.h`).  The remaining counters belong to the worker pipeline. -/
structure EmitStats where
  events_total : Nat
  events_dropped : Nat
deriving DecidableEq

/-- Producer state: the global queue plus the stats counters. -/
structure EmitState where
  queue : EventQueue
  stats : EmitStats
deriving DecidableEq

/-- Mirror of `Logger::emit` for an event that passed `should_sample`:
`events_total` is incremented, the event is pushed, and a failed push
increments `events_dropped` (logger.cpp lines 261-285). -/
def emitSampled (st : EmitState) (e : LogEvent ℚ) : EmitState :=
  let stats1 : EmitStats := { st.stats with events_total := st.stats.events_total + 1 }
  match st.queue.push e with
  | (true, q1) => ⟨q1, stats1⟩
  | (false, q1) =>
      ⟨q1, { stats1 with events_dropped := stats1.events_dropped + 1 }⟩

/-- A burst of sampled emissions with no intervening pops. -/
def emitBurst (st : EmitState) : List (LogEvent ℚ) → EmitState
  | [] => st
  | e :: rest => emitBurst (emitSampled st e) rest

/-- Closed form of a burst from a legal state (queue not over capacity):
the retained count saturates at capacity, `events_total` counts every
emission, `events_dropped` counts exactly the overflow. -/
theorem emitBurst_counts (evs : List (LogEvent ℚ)) (st : EmitState)
    (hlen : st.queue.queue.length ≤ st.queue.max_size) :
    (emitBurst st evs).queue.queue.length
        = min (st.queue.queue.length + evs.length) st.queue.max_size ∧
    (emitBurst st evs).queue.max_size = st.queue.max_size ∧
    (emitBurst st evs).stats.events_total = st.stats.events_total + evs.length ∧
    (emitBurst st evs).stats.events_dropped
        = st.stats.events_dropped + (st.queue.queue.length + evs.length)
            - min (st.queue.queue.length + evs.length) st.queue.max_size := by
  induction evs generalizing st with
  | nil =>
      simp only [emitBurst, List.length_nil]
      refine ⟨by omega, trivial, by omega, by omega⟩
  | cons e rest ih =>
      by_cases hfull : st.queue.queue.length ≥ st.queue.max_size
      · have step : emitSampled st e =
            ⟨st.queue, ⟨st.stats.events_total + 1, st.stats.events_dropped + 1⟩⟩ := by
          simp [emitSampled, EventQueue.push, hfull]
        obtain ⟨h1, h2, h3, h4⟩ :=
          ih ⟨st.queue, ⟨st.stats.events_total + 1, st.stats.events_dropped + 1⟩⟩ hlen
        simp only [emitBurst, step]
        dsimp only at h1 h2 h3 h4 ⊢
        rw [h1, h2, h3, h4]
        simp only [List.length_cons]
        refine ⟨by omega, trivial, by omega, by omega⟩
      · push_neg at hfull
        have step : emitSampled st e =
            ⟨⟨st.queue.queue ++ [e], st.queue.max_size⟩,
              ⟨st.stats.events_total + 1, st.stats.events_dropped⟩⟩ := by
          simp [emitSampled, EventQueue.push, not_le.mpr hfull]
        obtain ⟨h1, h2, h3, h4⟩ :=
          ih ⟨⟨st.queue.queue ++ [e], st.queue.max_size⟩,
              ⟨st.stats.events_total + 1, st.stats.events_dropped⟩⟩
            (by simpa using hfull)
        simp only [emitBurst, step]
        dsimp only at h1 h2 h3 h4 ⊢
        rw [h1, h2, h3, h4]
        simp only [List.length_append, List.length_cons, List.length_nil]
        refine ⟨by omega, trivial, by omega, by omega⟩

/-- C2: the bounded queue's `push` fails exactly when the queue already
holds `capacity` items (for any state respecting the capacity bound, which
every reachable state does), and after a burst of `N > capacity` sampled
emissions with no pops, starting from an empty queue, exactly `capacity`
events are retained, `events_dropped` grows by `N - capacity` (once per
failed push), and `events_total` grows by all `N` emissions. -/
theorem C2_queue_burst (cap : Nat) (evs : List (LogEvent ℚ)) (s0 : EmitStats)
    (hN : evs.length > cap) :
    (∀ (q : EventQueue) (e : LogEvent ℚ), q.queue.length ≤ q.max_size →
        ((q.push e).1 = false ↔ q.queue.length = q.max_size)) ∧
    (emitBurst ⟨⟨[], cap⟩, s0⟩ evs).queue.queue.length = cap ∧
    (emitBurst ⟨⟨[], cap⟩, s0⟩ evs).stats.events_dropped
        = s0.events_dropped + (evs.length - cap) ∧
    (emitBurst ⟨⟨[], cap⟩, s0⟩ evs).stats.events_total
        = s0.events_total + evs.length := by
  obtain ⟨h1, h2, h3, h4⟩ :=
    emitBurst_counts evs ⟨⟨[], cap⟩, s0⟩ (by simp)
  dsimp only at h1 h2 h3 h4
  refine ⟨?_, ?_, ?_, ?_⟩
  · intro q e hle
    by_cases h : q.queue.length ≥ q.max_size
    · simp [EventQueue.push, h]
      omega
    · simp [EventQueue.push, h]
      omega
  · rw [h1]; simp only [List.length_nil]; omega
  · rw [h4]; simp only [List.length_nil]; omega
  · rw [h3]

/-- Witness for C2 at capacity 2 and a burst of 5 events. -/
theorem C2_queue_burst_witness :
    (List.replicate 5 trivEvent).length > 2 ∧
    (emitBurst ⟨⟨[], 2⟩, ⟨0, 0⟩⟩ (List.replicate 5 trivEvent)).queue.queue.length = 2 ∧
    (emitBurst ⟨⟨[], 2⟩, ⟨0, 0⟩⟩ (List.replicate 5 trivEvent)).stats.events_dropped
        = 0 + (5 - 2) ∧
    (emitBurst ⟨⟨[], 2⟩, ⟨0, 0⟩⟩ (List.replicate 5 trivEvent)).stats.events_total
        = 0 + 5 := by
  have h := C2_queue_burst 2 (List.replicate 5 trivEvent) ⟨0, 0⟩ (by decide)
  exact ⟨by decide, h.2.1, h.2.2.1, h.2.2.2⟩

/-! ### Callback fan-out (logger.cpp lines 375-381, incident_manager.cpp lines 262-265)

Both loops have the shape `for (const auto& callback : list) callback(x);`
with no try/catch around the body.  A callback is modelled as a function
returning `Except String Unit`: `Except.error` models a thrown exception.
The unguarded loop runs callbacks in order until one throws; the exception
then propagates and the remaining callbacks are never invoked. -/

/-- Indices invoked by the unguarded loop, paired with the escaping
exception (if any).  Mirrors the C++ range-for with no try/catch. -/
def runCallbacksUnguarded {α : Type} (cbs : List (α → Except String Unit)) (x : α) :
    List Nat × Option String :=
  go cbs 0
where
  go : List (α → Except String Unit) → Nat → List Nat × Option String
    | [], _ => ([], none)
    | cb :: rest, i =>
        match cb x with
        | .ok _ => let r := go rest (i + 1); (i :: r.1, r.2)
        | .error msg => ([i], some msg)

/-- Modelled from the spec: "Each listener invocation must be wrapped so a
failure in one listener does not prevent later listeners from running nor
poison the worker" — every callback is invoked regardless of earlier
failures, and no exception escapes. -/
def runCallbacksIsolated {α : Type} (cbs : List (α → Except String Unit)) (x : α) :
    List Nat :=
  go cbs 0
where
  go : List (α → Except String Unit) → Nat → List Nat
    | [], _ => []
    | _ :: rest, i => i :: go rest (i + 1)

/-- A listener that throws. -/
def throwingCallback : LogEvent ℚ → Except String Unit := fun _ => Except.error "boom"

/-- A listener that returns normally. -/
def okCallback : LogEvent ℚ → Except String Unit := fun _ => Except.ok ()

/-- C8 (code bug): with two registered callbacks of which the first throws,
the unguarded loop of the code invokes only the first — the exception
escapes and the second callback never runs — while the spec's required
isolated dispatch invokes both. -/
theorem C8_callbacks_stop_at_throw :
    runCallbacksUnguarded [throwingCallback, okCallback] trivEvent = ([0], some "boom") ∧
    1 ∉ (runCallbacksUnguarded [throwingCallback, okCallback] trivEvent).1 ∧
    runCallbacksIsolated [throwingCallback, okCallback] trivEvent = [0, 1] := by
  decide

/-! ### Causality learning (correlation_engine.cpp, `CausalityAnalyzer::learn`) -/

/-- The causality kinds of `correlation_engine.h` (`enum class CausalityType`). -/
inductive CausalityType where
  | CAUSES
  | PREVENTS
  | ENABLES
  | PRECEDES
deriving DecidableEq, Repr

/-- `CausalityAnalyzer::CausalRelationship`: `typical_delay` is the
nanosecond count of the `duration_t`; `strength` is the C++ `double`. -/
structure CausalRelationship where
  cause_event_type : String
  effect_event_type : String
  type : CausalityType
  strength : ℚ
  typical_delay : Int
  observed_count : Nat
deriving DecidableEq

/-- The value `std::unordered_map::operator[]` default-inserts: the
value-initialised `CausalRelationship` (zeroed scalars, first enumerator). -/
def CausalRelationship.fresh : CausalRelationship :=
  ⟨"", "", .CAUSES, 0, 0, 0⟩

/-- The `relationships_` map, total with the value-initialised default. -/
def CausalMap : Type := String × String → CausalRelationship

/-- The empty `relationships_` map. -/
def CausalMap.empty : CausalMap := fun _ => CausalRelationship.fresh

/-- Mirror of `std::min(double, double)`: `b < a ? b : a`, written as a
conditional so that it evaluates on `ℚ`. -/
def dmin (a b : ℚ) : ℚ := if b < a then b else a

/-- `dmin` agrees with the order-theoretic `min`. -/
theorem dmin_eq_min (a b : ℚ) : dmin a b = min a b := by
  rcases lt_or_le b a with h | h
  · simp [dmin, h, min_eq_right h.le]
  · simp [dmin, not_lt.mpr h, min_eq_left h]

/-- The unsigned 64-bit representative of a signed value: conversion of an
`int64_t` (or any value, modularly) to `uint64_t`. -/
def wrap64 (x : Int) : Nat := (x % (2 ^ 64 : Int)).toNat

/-- Reading a `uint64_t` bit pattern back as `int64_t` (the implicit
conversion when the unsigned chrono result is stored into the signed
`duration_t` field). -/
def toInt64 (n : Nat) : Int :=
  if n < 2 ^ 63 then (n : Int) else (n : Int) - 2 ^ 64

/-- One step of the code's
`typical_delay = (typical_delay * (observed_count - 1) + delay) / observed_count`
(after the increment, so the multiplier is the old count `k` and the
divisor the new count `k + 1`).  `observed_count` is `uint64_t`
(correlation_engine.h line 111), so `std::common_type` drags the whole
chrono expression to an unsigned 64-bit representation: the signed inputs
convert modulo `2^64`, the numerator wraps modulo `2^64`, the division is
unsigned, and the quotient converts back into the signed field. -/
def u64MeanStep (mean : Int) (k : Nat) (d : Int) : Int :=
  toInt64 ((wrap64 mean * k + wrap64 d) % 2 ^ 64 / (k + 1))

/-- Mirror of `CausalityAnalyzer::learn` (correlation_engine.cpp lines
302-334): for each context event no older than 60 s before the incoming
event, upsert the relationship keyed by (cause type, effect type).  The
typical-delay running mean is computed in unsigned 64-bit arithmetic
(`u64MeanStep`), as the `uint64_t` `observed_count` forces. -/
def CausalityAnalyzer.learn {α : Type} (rels : CausalMap) (event : LogEvent α)
    (context : List (LogEvent α)) : CausalMap :=
  let cutoff : Int := event.timestamp - 60 * 1000000000
  context.foldl
    (fun acc prev =>
      if prev.timestamp < cutoff then acc
      else
        let pair := (prev.event_type, event.event_type)
        let rel0 := acc pair
        let rel1 :=
          if rel0.observed_count = 0 then
            { rel0 with
                cause_event_type := prev.event_type,
                effect_event_type := event.event_type,
                type := .PRECEDES,
                strength := 0.1,
                typical_delay := event.timestamp - prev.timestamp }
          else rel0
        let cnt := rel1.observed_count + 1
        let delay := event.timestamp - prev.timestamp
        Function.update acc pair
          { rel1 with
              observed_count := cnt,
              typical_delay := u64MeanStep rel1.typical_delay rel1.observed_count delay,
              strength := dmin 1 (rel1.strength + 0.05) })
    rels

/-- An event with just a type and a timestamp, for causality scenarios. -/
def typedEvent (ty : String) (ts : Int) : LogEvent ℚ :=
  ⟨0, ty, ts, .INFO, "", [], [], [], "", "", 0, none⟩

/-- A sequence of sightings of the pair `A → B`: each element `(et, pt)` is
one `learn` call for an effect event of type `B` at time `et` whose context
holds one cause event of type `A` at time `pt`. -/
def learnSights (A B : String) (sights : List (Int × Int)) : CausalMap :=
  sights.foldl
    (fun acc s => CausalityAnalyzer.learn acc (typedEvent B s.1) [typedEvent A s.2])
    CausalMap.empty

/-- C6 counterexample: after the very first sighting the stored strength is
0.15, not the 0.1 the claim's "initialized with … strength 0.1 … +0.05 per
observation after the initial 0.1" describes — the +0.05 update runs on the
first sighting too. -/
theorem C6_first_sight_strength_counterexample :
    (learnSights "A" "B" [(1000, 900)] ("A", "B")).strength = 0.15 ∧
    (learnSights "A" "B" [(1000, 900)] ("A", "B")).observed_count = 1 ∧
    (0.15 : ℚ) ≠ 0.1 := by
  refine ⟨?_, ?_, by norm_num⟩ <;>
    norm_num [learnSights, CausalityAnalyzer.learn, CausalMap.empty,
      CausalRelationship.fresh, typedEvent, dmin, Function.update]

/-- One within-window sighting of the pair `A → B` with delay `d`, as
`CausalityAnalyzer::learn` performs it on the stored relationship `r`:
first-sight initialisation when `observed_count = 0`, then the common
count/delay/strength update. -/
def stepRel (A B : String) (r : CausalRelationship) (d : Int) : CausalRelationship :=
  let rel1 :=
    if r.observed_count = 0 then
      { r with
          cause_event_type := A,
          effect_event_type := B,
          type := .PRECEDES,
          strength := 0.1,
          typical_delay := d }
    else r
  let cnt := rel1.observed_count + 1
  { rel1 with
      observed_count := cnt,
      typical_delay := u64MeanStep rel1.typical_delay rel1.observed_count d,
      strength := dmin 1 (rel1.strength + 0.05) }

/-- A single `learn` call whose context holds one within-window prior event
updates exactly the key `(A, B)`, by `stepRel`. -/
theorem learn_single (A B : String) (rels : CausalMap) (et pt : Int)
    (hwin : et - 60 * 1000000000 ≤ pt) :
    CausalityAnalyzer.learn rels (typedEvent B et) [typedEvent A pt]
      = Function.update rels (A, B) (stepRel A B (rels (A, B)) (et - pt)) := by
  have hwin2 : ¬ ((typedEvent A pt).timestamp <
      (typedEvent B et).timestamp - 60 * 1000000000) := by
    simp only [typedEvent, not_lt]
    linarith
  simp [CausalityAnalyzer.learn, typedEvent, stepRel, not_lt.mp hwin2] at *
  simp [not_lt.mpr (by linarith : et - 60000000000 ≤ pt)]

/-- The running mean of a delay sequence in the code's unsigned 64-bit
arithmetic, with the accumulator `(mean so far, observations so far)`. -/
def runningMeanStep (p : Int × Nat) (d : Int) : Int × Nat :=
  (u64MeanStep p.1 p.2 d, p.2 + 1)

/-- The running unsigned-64-bit mean of a full delay sequence. -/
def runningMeanDelay (ds : List Int) : Int :=
  (ds.foldl runningMeanStep (0, 0)).1

/-- Strength after `n` sightings: `min 1 (0.1 + n·0.05)`. -/
def strengthAfter (n : Nat) : ℚ := min 1 (0.1 + (n : ℚ) * 0.05)

/-- The strength recurrence of the code steps the closed form. -/
theorem strengthAfter_step (n : Nat) :
    dmin 1 (strengthAfter n + 0.05) = strengthAfter (n + 1) := by
  rcases le_or_lt (0.1 + (n : ℚ) * 0.05) 1 with h | h
  · have h1 : strengthAfter n = 0.1 + (n : ℚ) * 0.05 := min_eq_right h
    rw [h1, dmin_eq_min, strengthAfter]
    push_cast
    ring_nf
  · have h1 : strengthAfter n = 1 := min_eq_left h.le
    have h2 : (1 : ℚ) < 0.1 + ((n : ℚ) + 1) * 0.05 := by
      calc (1 : ℚ) < 0.1 + (n : ℚ) * 0.05 := h
        _ ≤ 0.1 + ((n : ℚ) + 1) * 0.05 := by nlinarith
    rw [h1, dmin_eq_min, strengthAfter]
    push_cast
    rw [min_eq_left (by linarith), min_eq_left (by linarith)]

/-- One `stepRel` application on a state that already holds `k ≥ 1`
sightings. -/
theorem stepRel_cons (A B : String) (k : Nat) (mean : Int) (d : Int) (hk : 1 ≤ k) :
    stepRel A B ⟨A, B, .PRECEDES, strengthAfter k, mean, k⟩ d
      = ⟨A, B, .PRECEDES, strengthAfter (k + 1), u64MeanStep mean k d, k + 1⟩ := by
  have hk0 : ¬ k = 0 := by omega
  simp only [stepRel, hk0, if_false]
  rw [strengthAfter_step]

/-- Chaining `stepRel` over further delays from a state already holding
`k ≥ 1` sightings, with the closed-form strength and running-mean delay. -/
theorem stepRel_chain (A B : String) (ds : List Int) :
    ∀ (k : Nat) (mean : Int), 1 ≤ k →
    ds.foldl (stepRel A B) ⟨A, B, .PRECEDES, strengthAfter k, mean, k⟩
      = ⟨A, B, .PRECEDES, strengthAfter (k + ds.length),
          (ds.foldl runningMeanStep (mean, k)).1, k + ds.length⟩ := by
  induction ds with
  | nil => intro k mean _; simp
  | cons d rest ih =>
      intro k mean hk
      rw [List.foldl_cons, stepRel_cons A B k mean d hk]
      rw [List.foldl_cons]
      have hms : runningMeanStep (mean, k) d
          = (u64MeanStep mean k d, k + 1) := by
        simp [runningMeanStep]
      rw [hms]
      have h2 := ih (k + 1) (u64MeanStep mean k d) (by omega)
      rw [h2]
      simp only [List.length_cons]
      have h3 : k + 1 + rest.length = k + (rest.length + 1) := by omega
      rw [h3]

/-- All sightings of a run update only the key `(A, B)`, by the chain of
`stepRel` applications on the delays. -/
theorem learnSights_aux (A B : String) (sights : List (Int × Int)) :
    ∀ (m : CausalMap), (∀ s ∈ sights, s.1 - 60 * 1000000000 ≤ s.2) →
    sights.foldl
        (fun acc s => CausalityAnalyzer.learn acc (typedEvent B s.1) [typedEvent A s.2]) m
      = Function.update m (A, B)
          ((sights.map (fun s => s.1 - s.2)).foldl (stepRel A B) (m (A, B))) := by
  induction sights with
  | nil => intro m _; simp
  | cons s rest ih =>
      intro m hwin
      rw [List.foldl_cons, learn_single A B m s.1 s.2 (hwin s (by simp))]
      rw [ih _ (fun t ht => hwin t (by simp [ht]))]
      rw [Function.update_idem, Function.update_same, List.map_cons, List.foldl_cons]

/-- The first sighting, on the value-initialised relationship: the
first-sight initialisation writes the raw difference, and the common
update then replaces it with its own wrapped image (the numerator is
`delay * 0 + delay`, divided by 1). -/
theorem stepRel_fresh (A B : String) (d : Int) :
    stepRel A B CausalRelationship.fresh d
      = ⟨A, B, .PRECEDES, strengthAfter 1, u64MeanStep 0 0 d, 1⟩ := by
  simp only [stepRel, CausalRelationship.fresh]
  norm_num [strengthAfter, dmin, u64MeanStep, wrap64]

/-- The unsigned wrap is observable: the code's only context guard is
`prev.timestamp < cutoff`, so a context event may lie after the effect
event; the sightings (1000, 900) then (1000, 3000) produce the numerator
`100 * 1 + (-2000)`, which wraps, and the stored typical delay is
`2^63 - 950`, not the exact running mean `-950`. -/
theorem learn_delay_wraps :
    (learnSights "A" "B" [(1000, 900), (1000, 3000)] ("A", "B")).typical_delay
      = 2 ^ 63 - 950 ∧ ((2 : Int) ^ 63 - 950 : Int) ≠ -950 := by
  exact ⟨by decide, by decide⟩

/-- C6 (amended): over any nonempty run of within-window sightings of the
pair `A → B`, the learned relationship has kind PRECEDES, `observed_count`
equal to the number of sightings, strength `min 1 (0.1 + n·0.05)` after `n`
sightings — the `+0.05` update runs on the first sighting too, on top of
the 0.1 initialisation, so the first stored strength is 0.15 — and typical
delay equal to the running mean of the observed delays computed in the
code's unsigned 64-bit arithmetic (the `uint64_t` `observed_count` drags
the chrono expression to an unsigned representation, so a negative
numerator wraps modulo `2^64`; for nonnegative in-range delays this is the
ordinary running integer mean). -/
theorem C6_causality_learning (A B : String) (sights : List (Int × Int))
    (hwin : ∀ s ∈ sights, s.1 - 60 * 1000000000 ≤ s.2) (hne : sights ≠ []) :
    (learnSights A B sights (A, B)).cause_event_type = A ∧
    (learnSights A B sights (A, B)).effect_event_type = B ∧
    (learnSights A B sights (A, B)).type = .PRECEDES ∧
    (learnSights A B sights (A, B)).observed_count = sights.length ∧
    (learnSights A B sights (A, B)).strength
        = min 1 (0.1 + (sights.length : ℚ) * 0.05) ∧
    (learnSights A B sights (A, B)).typical_delay
        = runningMeanDelay (sights.map (fun s => s.1 - s.2)) := by
  match sights, hne with
  | s :: rest, _ =>
    have h := learnSights_aux A B (s :: rest) CausalMap.empty hwin
    rw [learnSights, h, Function.update_same]
    have hempty : CausalMap.empty (A, B) = CausalRelationship.fresh := rfl
    rw [hempty, List.map_cons, List.foldl_cons, stepRel_fresh]
    rw [stepRel_chain A B _ 1 (u64MeanStep 0 0 (s.1 - s.2)) (by omega)]
    have hrmd : runningMeanDelay ((s.1 - s.2) :: rest.map (fun t => t.1 - t.2))
        = (((rest.map (fun t => t.1 - t.2))).foldl runningMeanStep
            (u64MeanStep 0 0 (s.1 - s.2), 1)).1 := by
      rw [runningMeanDelay, List.foldl_cons]
      have h0 : runningMeanStep (0, 0) (s.1 - s.2)
          = (u64MeanStep 0 0 (s.1 - s.2), 1) := rfl
      rw [h0]
    rw [hrmd]
    refine ⟨rfl, rfl, rfl, ?_, ?_, rfl⟩
    · simp [Nat.add_comm]
    · have hlen : 1 + (rest.map (fun t => t.1 - t.2)).length = (s :: rest).length := by
        simp [Nat.add_comm]
      rw [hlen, strengthAfter]

/-- Witness for C6 at two concrete sightings. -/
theorem C6_causality_learning_witness :
    (∀ s ∈ [((1000 : Int), (900 : Int)), (2000, 1980)], s.1 - 60 * 1000000000 ≤ s.2) ∧
    ([((1000 : Int), (900 : Int)), (2000, 1980)] : List (Int × Int)) ≠ [] ∧
    (learnSights "a" "b" [(1000, 900), (2000, 1980)] ("a", "b")).type = .PRECEDES ∧
    (learnSights "a" "b" [(1000, 900), (2000, 1980)] ("a", "b")).observed_count
      = ([((1000 : Int), (900 : Int)), (2000, 1980)] : List (Int × Int)).length := by
  have h := C6_causality_learning "a" "b" [(1000, 900), (2000, 1980)]
    (by decide) (by decide)
  exact ⟨by decide, by decide, h.2.2.1, h.2.2.2.1⟩

/-! ### Incident manager (incident_manager.h / incident_manager.cpp)

Scores and thresholds are C++ `double`, modelled as `ℝ`; times are `Int`
nanoseconds.  `incidents_` (an `unordered_map`) is modelled as the list of
its entries in insertion order; the only order-sensitive operation,
`find_duplicate`, is settled through an existence statement, which is
independent of iteration order.  `Incident.description`, `labels`, `tags`,
`affected_users_count` and the external-integration id fields are omitted:
no modelled operation reads them (`description` in particular is not
consulted by deduplication). -/

/-- `enum class IncidentSeverity` (incident_manager.h). -/
inductive IncidentSeverity where
  | LOW
  | MEDIUM
  | HIGH
  | CRITICAL
deriving DecidableEq, Repr

/-- `enum class IncidentStatus` (incident_manager.h). -/
inductive IncidentStatus where
  | OPEN
  | INVESTIGATING
  | IDENTIFIED
  | MONITORING
  | RESOLVED
  | CLOSED
deriving DecidableEq, Repr

/-- `struct Correlation` (correlation_engine.h); `metadata` omitted (unread
by modelled operations). -/
structure Correlation where
  event_ids : List Nat
  correlation_type : String
  confidence : ℝ
  reason : String
  first_event_time : Int
  last_event_time : Int

/-- `struct Incident` (incident_manager.h), restricted to the fields the
modelled operations read or write. -/
structure Incident where
  incident_id : String
  title : String
  severity : IncidentSeverity
  status : IncidentStatus
  created_at : Int
  resolved_at : Option Int
  event_ids : List Nat
  root_cause : Option String
  anomaly_score : ℝ
  affected_services_count : Nat

/-- `IncidentManagerConfig` (incident_manager.h lines 100-118), durations
as nanoseconds. -/
structure IncidentManagerConfig where
  anomaly_threshold : ℝ
  pattern_match_threshold : Nat
  correlated_events_threshold : Nat
  enable_auto_resolution : Bool
  resolution_timeout : Int
  enable_deduplication : Bool
  deduplication_window : Int
  critical_threshold : ℝ
  high_threshold : ℝ
  medium_threshold : ℝ

/-- The default-constructed config: thresholds 0.75 / 1 / 3, auto-resolve
after 15 min, dedup window 5 min, severity bands 0.95 / 0.85 / 0.75. -/
noncomputable def IncidentManagerConfig.default : IncidentManagerConfig :=
  ⟨0.75, 1, 3, true, 15 * 60 * 1000000000, true, 5 * 60 * 1000000000, 0.95, 0.85, 0.75⟩

/-- `IncidentManager::Stats` plus the id counter `next_incident_id_` and
the `incidents_` store. -/
structure ManagerState where
  incidents : List (String × Incident)
  next_incident_id : Nat
  total_created : Nat
  currently_open : Nat
  resolved : Nat
  deduplicated : Nat

/-- The freshly constructed manager: empty store, id counter 1, zero stats. -/
def ManagerState.init : ManagerState := ⟨[], 1, 0, 0, 0, 0⟩

/-- Left-pad a numeral to six digits: `std::setw(6) << std::setfill('0')`. -/
def pad6 (n : Nat) : String :=
  let s := toString n
  String.mk (List.replicate (6 - s.length) '0') ++ s

/-- Mirror of `IncidentManager::generate_incident_id`. -/
def generate_incident_id (n : Nat) : String := "INC-" ++ pad6 n

/-- Mirror of `IncidentManager::calculate_severity` (first rule wins). -/
noncomputable def calculate_severity (cfg : IncidentManagerConfig)
    (anomaly_score : ℝ) (pattern_matches correlated_events : Nat) : IncidentSeverity :=
  if anomaly_score ≥ cfg.critical_threshold then .CRITICAL
  else if anomaly_score ≥ cfg.high_threshold ∨ pattern_matches ≥ 2 then .HIGH
  else if anomaly_score ≥ cfg.medium_threshold ∨ correlated_events ≥ 5 then .MEDIUM
  else .LOW

/-- Mirror of `IncidentManager::find_duplicate` (incident_manager.cpp lines
394-430): first stored incident that is inside the deduplication window,
non-terminal, and either shares title and severity with the candidate or
holds more than half of the candidate's event ids. -/
def find_duplicate (cfg : IncidentManagerConfig) (inc : Incident) :
    List (String × Incident) → Option String
  | [] => none
  | p :: rest =>
      if p.2.created_at < inc.created_at - cfg.deduplication_window then
        find_duplicate cfg inc rest
      else if p.2.status = .RESOLVED ∨ p.2.status = .CLOSED then
        find_duplicate cfg inc rest
      else if p.2.title = inc.title ∧ p.2.severity = inc.severity then some p.1
      else if (inc.event_ids.filter (fun i => i ∈ p.2.event_ids)).length
          > inc.event_ids.length / 2 then some p.1
      else find_duplicate cfg inc rest

/-- The threshold disjunction of `evaluate_event` (incident_manager.cpp
lines 127-139): the three `if`s each set `should_create`. -/
def shouldCreate (cfg : IncidentManagerConfig) (ev : LogEvent ℝ)
    (correlations : List Correlation) (matched_patterns : List String) : Prop :=
  ev.anomaly_score ≥ cfg.anomaly_threshold ∨
  matched_patterns.length ≥ cfg.pattern_match_threshold ∨
  correlations.length ≥ cfg.correlated_events_threshold

noncomputable instance (cfg ev correlations matched_patterns) :
    Decidable (shouldCreate cfg ev correlations matched_patterns) := by
  unfold shouldCreate; infer_instance

/-- The incident `evaluate_event` constructs once the thresholds pass
(incident_manager.cpp lines 146-235): id from the counter, `OPEN`, title
from the first pattern or the event type, severity from
`calculate_severity`, event ids of the event followed by every
correlation's ids. -/
noncomputable def candidate_incident (cfg : IncidentManagerConfig) (now : Int)
    (ev : LogEvent ℝ) (correlations : List Correlation)
    (matched_patterns : List String) (next_id : Nat) : Incident :=
  { incident_id := generate_incident_id next_id
    title :=
      match matched_patterns with
      | [] => "Anomaly in " ++ ev.event_type
      | p :: _ => "Pattern detected: " ++ p
    severity :=
      calculate_severity cfg ev.anomaly_score matched_patterns.length correlations.length
    status := .OPEN
    created_at := now
    resolved_at := none
    event_ids := ev.event_id :: (correlations.map Correlation.event_ids).flatten
    root_cause := none
    anomaly_score := ev.anomaly_score
    affected_services_count := if ev.service_name = "" then 0 else 1 }

/-- Mirror of `IncidentManager::evaluate_event` (incident_manager.cpp lines
119-268): threshold gate, incident construction (consuming an id from the
counter), deduplication, then storage and stats. -/
noncomputable def evaluate_event (cfg : IncidentManagerConfig) (now : Int)
    (ev : LogEvent ℝ) (correlations : List Correlation)
    (matched_patterns : List String) (st : ManagerState) :
    Option Incident × ManagerState :=
  if shouldCreate cfg ev correlations matched_patterns then
    let inc := candidate_incident cfg now ev correlations matched_patterns
        st.next_incident_id
    let st1 := { st with next_incident_id := st.next_incident_id + 1 }
    if cfg.enable_deduplication ∧ (find_duplicate cfg inc st1.incidents).isSome then
      (none, { st1 with deduplicated := st1.deduplicated + 1 })
    else
      (some inc,
        { st1 with
            incidents := st1.incidents ++ [(inc.incident_id, inc)],
            total_created := st1.total_created + 1,
            currently_open := st1.currently_open + 1 })
  else (none, st)

/-- Mirror of `IncidentManager::create_incident` (incident_manager.cpp
lines 270-310). -/
noncomputable def create_incident (now : Int) (title : String)
    (severity : IncidentSeverity) (event_ids : List Nat) (st : ManagerState) :
    Incident × ManagerState :=
  let inc : Incident :=
    { incident_id := generate_incident_id st.next_incident_id
      title := title
      severity := severity
      status := .OPEN
      created_at := now
      resolved_at := none
      event_ids := event_ids
      root_cause := none
      anomaly_score := 0
      affected_services_count := 0 }
  (inc,
    { st with
        incidents := st.incidents ++ [(inc.incident_id, inc)],
        next_incident_id := st.next_incident_id + 1,
        total_created := st.total_created + 1,
        currently_open := st.currently_open + 1 })

/-- Mirror of `IncidentManager::update_status` (incident_manager.cpp lines
312-319): sets only the status, touching neither `resolved_at` nor stats. -/
def update_status (id : String) (new_status : IncidentStatus) (st : ManagerState) :
    ManagerState :=
  { st with
      incidents := st.incidents.map fun p =>
        if p.1 = id then (p.1, { p.2 with status := new_status }) else p }

/-- Mirror of `IncidentManager::resolve_incident` (incident_manager.cpp
lines 321-356): when the id is present, set `RESOLVED`, stamp
`resolved_at = now`, record the resolution, and move the stats. -/
def resolve_incident (now : Int) (id : String) (resolution : String)
    (st : ManagerState) : ManagerState :=
  if (st.incidents.find? (fun p => p.1 = id)).isSome then
    { st with
        incidents := st.incidents.map fun p =>
          if p.1 = id then
            (p.1, { p.2 with
                      status := .RESOLVED,
                      resolved_at := some now,
                      root_cause := some resolution })
          else p,
        currently_open := st.currently_open - 1,
        resolved := st.resolved + 1 }
  else st

/-- Mirror of `IncidentManager::auto_resolve_stale_incidents`
(incident_manager.cpp lines 432-454). -/
def auto_resolve_stale_incidents (cfg : IncidentManagerConfig) (now : Int)
    (st : ManagerState) : ManagerState :=
  if cfg.enable_auto_resolution then
    let cutoff := now - cfg.resolution_timeout
    let stale := fun (p : String × Incident) =>
      (p.2.status = IncidentStatus.OPEN ∨ p.2.status = IncidentStatus.INVESTIGATING) ∧
        p.2.created_at < cutoff
    { st with
        incidents := st.incidents.map fun p =>
          if stale p then
            (p.1, { p.2 with
                      status := .RESOLVED,
                      resolved_at := some now,
                      root_cause := some "Auto-resolved: no further activity" })
          else p,
        currently_open := st.currently_open - (st.incidents.filter stale).length,
        resolved := st.resolved + (st.incidents.filter stale).length }
  else st

/-- C1 (amended): `evaluate_event` returns an incident iff one of the three
thresholds passes AND the candidate is not suppressed as a duplicate (when
deduplication is enabled); when no threshold passes it returns no incident
and leaves the state untouched. -/
theorem C1_incident_creation_gate (cfg : IncidentManagerConfig) (now : Int)
    (ev : LogEvent ℝ) (corrs : List Correlation) (pats : List String)
    (st : ManagerState) :
    ((evaluate_event cfg now ev corrs pats st).1.isSome ↔
      (shouldCreate cfg ev corrs pats ∧
        ¬(cfg.enable_deduplication ∧
          (find_duplicate cfg
            (candidate_incident cfg now ev corrs pats st.next_incident_id)
            st.incidents).isSome))) ∧
    (¬ shouldCreate cfg ev corrs pats →
      evaluate_event cfg now ev corrs pats st = (none, st)) := by
  by_cases hsc : shouldCreate cfg ev corrs pats
  · by_cases hdup : cfg.enable_deduplication ∧
        (find_duplicate cfg
          (candidate_incident cfg now ev corrs pats st.next_incident_id)
          st.incidents).isSome
    · constructor
      · simp only [evaluate_event, if_pos hsc]
        rw [if_pos (by simpa using hdup)]
        simp [hsc, hdup]
      · intro h; exact absurd hsc h
    · constructor
      · simp only [evaluate_event, if_pos hsc]
        rw [if_neg (by simpa using hdup)]
        simp [hsc, hdup]
      · intro h; exact absurd hsc h
  · simp [evaluate_event, if_neg hsc, hsc]

/-- The event of the C1 counterexample: anomaly score 0.97, over the 0.75
default threshold. -/
noncomputable def evC1 : LogEvent ℝ :=
  ⟨8, "x", 0, .INFO, "", [], [], [], "", "", 0.97, none⟩

/-- An open incident stored moments earlier with the same title and
severity the candidate for `evC1` gets. -/
noncomputable def incC1 : Incident :=
  ⟨"INC-000001", "Anomaly in " ++ "x", .CRITICAL, .OPEN, 0, none, [7], none, 0.97, 0⟩

/-- Manager state already holding `incC1`. -/
noncomputable def stC1 : ManagerState := ⟨[("INC-000001", incC1)], 2, 1, 1, 0, 0⟩

/-- C1 counterexample: with the default config (deduplication on), an event
over the anomaly threshold produces no incident because a duplicate is
found — the claim's "incident is created if at least one threshold holds"
fails as stated. -/
theorem C1_counterexample :
    shouldCreate IncidentManagerConfig.default evC1 [] [] ∧
    (evaluate_event IncidentManagerConfig.default 0 evC1 [] [] stC1).1 = none := by
  have hsc : shouldCreate IncidentManagerConfig.default evC1 [] [] := by
    left
    show (evC1.anomaly_score ≥ IncidentManagerConfig.default.anomaly_threshold)
    norm_num [evC1, IncidentManagerConfig.default]
  refine ⟨hsc, ?_⟩
  have hsev : (candidate_incident IncidentManagerConfig.default 0 evC1 [] []
      stC1.next_incident_id).severity = .CRITICAL := by
    show calculate_severity IncidentManagerConfig.default evC1.anomaly_score 0 0
        = .CRITICAL
    rw [calculate_severity, if_pos (by norm_num [evC1, IncidentManagerConfig.default])]
  have htitle : (candidate_incident IncidentManagerConfig.default 0 evC1 [] []
      stC1.next_incident_id).title = "Anomaly in " ++ "x" := rfl
  have hdup : find_duplicate IncidentManagerConfig.default
      (candidate_incident IncidentManagerConfig.default 0 evC1 [] []
        stC1.next_incident_id)
      stC1.incidents = some "INC-000001" := by
    show find_duplicate _ _ (("INC-000001", incC1) :: []) = _
    rw [find_duplicate]
    rw [if_neg (by
      show ¬ (incC1.created_at < (candidate_incident _ 0 evC1 [] [] _).created_at
        - IncidentManagerConfig.default.deduplication_window)
      norm_num [incC1, candidate_incident, IncidentManagerConfig.default])]
    rw [if_neg (by
      show ¬ (incC1.status = IncidentStatus.RESOLVED ∨
        incC1.status = IncidentStatus.CLOSED)
      simp [incC1])]
    rw [if_pos ⟨by rw [htitle]; rfl, by rw [hsev]; rfl⟩]
  have hcond : IncidentManagerConfig.default.enable_deduplication = true ∧
      (find_duplicate IncidentManagerConfig.default
        (candidate_incident IncidentManagerConfig.default 0 evC1 [] []
          stC1.next_incident_id)
        stC1.incidents).isSome = true := ⟨rfl, by rw [hdup]; rfl⟩
  simp only [evaluate_event, if_pos hsc]
  rw [if_pos hcond]

/-- The per-entry duplicate condition of `find_duplicate`, as a predicate:
inside the deduplication window, non-terminal, and same title and severity
or more-than-half overlap of the candidate's event ids. -/
def isDuplicateOf (cfg : IncidentManagerConfig) (inc : Incident)
    (p : String × Incident) : Prop :=
  ¬ (p.2.created_at < inc.created_at - cfg.deduplication_window) ∧
  ¬ (p.2.status = .RESOLVED ∨ p.2.status = .CLOSED) ∧
  ((p.2.title = inc.title ∧ p.2.severity = inc.severity) ∨
    (inc.event_ids.filter (fun i => i ∈ p.2.event_ids)).length
      > inc.event_ids.length / 2)

/-- `find_duplicate` finds something exactly when some stored incident
satisfies the duplicate condition (iteration order does not matter for
existence). -/
theorem find_duplicate_isSome_iff (cfg : IncidentManagerConfig) (inc : Incident)
    (l : List (String × Incident)) :
    (find_duplicate cfg inc l).isSome ↔ ∃ p ∈ l, isDuplicateOf cfg inc p := by
  induction l with
  | nil => simp [find_duplicate]
  | cons p rest ih =>
      by_cases h1 : p.2.created_at < inc.created_at - cfg.deduplication_window
      · rw [find_duplicate, if_pos h1, ih]
        constructor
        · rintro ⟨q, hq, hdq⟩; exact ⟨q, List.mem_cons_of_mem _ hq, hdq⟩
        · rintro ⟨q, hq, hdq⟩
          rcases List.mem_cons.mp hq with rfl | hq'
          · exact absurd h1 hdq.1
          · exact ⟨q, hq', hdq⟩
      · by_cases h2 : p.2.status = IncidentStatus.RESOLVED ∨
            p.2.status = IncidentStatus.CLOSED
        · rw [find_duplicate, if_neg h1, if_pos h2, ih]
          constructor
          · rintro ⟨q, hq, hdq⟩; exact ⟨q, List.mem_cons_of_mem _ hq, hdq⟩
          · rintro ⟨q, hq, hdq⟩
            rcases List.mem_cons.mp hq with rfl | hq'
            · exact absurd h2 hdq.2.1
            · exact ⟨q, hq', hdq⟩
        · by_cases h3 : p.2.title = inc.title ∧ p.2.severity = inc.severity
          · rw [find_duplicate, if_neg h1, if_neg h2, if_pos h3]
            simp only [Option.isSome_some, true_iff]
            exact ⟨p, List.mem_cons_self _ _, h1, h2, Or.inl h3⟩
          · by_cases h4 : (inc.event_ids.filter (fun i => i ∈ p.2.event_ids)).length
                > inc.event_ids.length / 2
            · rw [find_duplicate, if_neg h1, if_neg h2, if_neg h3, if_pos h4]
              simp only [Option.isSome_some, true_iff]
              exact ⟨p, List.mem_cons_self _ _, h1, h2, Or.inr h4⟩
            · rw [find_duplicate, if_neg h1, if_neg h2, if_neg h3, if_neg h4, ih]
              constructor
              · rintro ⟨q, hq, hdq⟩; exact ⟨q, List.mem_cons_of_mem _ hq, hdq⟩
              · rintro ⟨q, hq, hdq⟩
                rcases List.mem_cons.mp hq with rfl | hq'
                · rcases hdq.2.2 with h | h
                  · exact absurd h h3
                  · exact absurd h h4
                · exact ⟨q, hq', hdq⟩

/-- C5: with deduplication enabled and the thresholds passed, the new
incident is suppressed — `evaluate_event` returns none and `deduplicated`
increments by one — exactly when some stored incident created within the
deduplication window is non-terminal and either shares the candidate's
title and severity or holds more than half of the candidate's event ids. -/
theorem C5_deduplication (cfg : IncidentManagerConfig) (now : Int)
    (ev : LogEvent ℝ) (corrs : List Correlation) (pats : List String)
    (st : ManagerState)
    (hded : cfg.enable_deduplication = true)
    (hsc : shouldCreate cfg ev corrs pats) :
    ((evaluate_event cfg now ev corrs pats st).1 = none ∧
      (evaluate_event cfg now ev corrs pats st).2.deduplicated
        = st.deduplicated + 1) ↔
    ∃ p ∈ st.incidents,
      isDuplicateOf cfg
        (candidate_incident cfg now ev corrs pats st.next_incident_id) p := by
  rw [← find_duplicate_isSome_iff]
  by_cases hdup : (find_duplicate cfg
      (candidate_incident cfg now ev corrs pats st.next_incident_id)
      st.incidents).isSome
  · simp only [evaluate_event, if_pos hsc]
    rw [if_pos ⟨hded, hdup⟩]
    simp [hdup]
  · simp only [evaluate_event, if_pos hsc]
    rw [if_neg (by
      rintro ⟨-, h⟩
      exact hdup h)]
    simp [hdup]

/-- Witness for C5 at the concrete duplicate scenario of `evC1`/`stC1`. -/
theorem C5_deduplication_witness :
    IncidentManagerConfig.default.enable_deduplication = true ∧
    shouldCreate IncidentManagerConfig.default evC1 [] [] ∧
    (((evaluate_event IncidentManagerConfig.default 0 evC1 [] [] stC1).1 = none ∧
      (evaluate_event IncidentManagerConfig.default 0 evC1 [] [] stC1).2.deduplicated
        = stC1.deduplicated + 1) ↔
    ∃ p ∈ stC1.incidents,
      isDuplicateOf IncidentManagerConfig.default
        (candidate_incident IncidentManagerConfig.default 0 evC1 [] []
          stC1.next_incident_id) p) := by
  have hsc : shouldCreate IncidentManagerConfig.default evC1 [] [] := by
    left
    show (evC1.anomaly_score ≥ IncidentManagerConfig.default.anomaly_threshold)
    norm_num [evC1, IncidentManagerConfig.default]
  exact ⟨rfl, hsc, C5_deduplication IncidentManagerConfig.default 0 evC1 [] [] stC1 rfl hsc⟩

/-! ### C9: the resolved-at invariant over incident-manager operation traces -/

/-- One public incident-manager operation, with the wall-clock instant the
C++ reads from `system_clock::now()` made explicit. -/
inductive MgrOp where
  | evalEvent (now : Int) (ev : LogEvent ℝ) (corrs : List Correlation) (pats : List String)
  | createInc (now : Int) (title : String) (sev : IncidentSeverity) (ids : List Nat)
  | updateStat (id : String) (s : IncidentStatus)
  | resolveInc (now : Int) (id : String) (resolution : String)
  | autoResolve (now : Int)

/-- Apply one operation to the manager state. -/
noncomputable def MgrOp.apply (cfg : IncidentManagerConfig) (st : ManagerState) :
    MgrOp → ManagerState
  | .evalEvent now ev corrs pats => (evaluate_event cfg now ev corrs pats st).2
  | .createInc now title sev ids => (create_incident now title sev ids st).2
  | .updateStat id s => update_status id s st
  | .resolveInc now id r => resolve_incident now id r st
  | .autoResolve now => auto_resolve_stale_incidents cfg now st

/-- A sequence of operations from a state. -/
noncomputable def mgrRun (cfg : IncidentManagerConfig) (ops : List MgrOp)
    (st : ManagerState) : ManagerState :=
  ops.foldl (fun s op => op.apply cfg s) st

/-- The wall-clock instant of an operation (`update_status` reads no clock). -/
def MgrOp.time : MgrOp → Int
  | .evalEvent now _ _ _ => now
  | .createInc now _ _ _ => now
  | .updateStat _ _ => 0
  | .resolveInc now _ _ => now
  | .autoResolve now => now

/-- Whether the operation is `update_status`. -/
def MgrOp.isUpdateStatus : MgrOp → Bool
  | .updateStat _ _ => true
  | _ => false

/-- The claimed incident invariant: `resolved_at` is set iff the status is
RESOLVED, and any `resolved_at` is at or after `created_at`. -/
def incInv (inc : Incident) : Prop :=
  (inc.resolved_at.isSome ↔ inc.status = .RESOLVED) ∧
  (∀ t ∈ inc.resolved_at, inc.created_at ≤ t)

/-- State invariant at a clock bound: every stored incident satisfies
`incInv` and was created no later than the bound. -/
def stInv (st : ManagerState) (clock : Int) : Prop :=
  ∀ p ∈ st.incidents, incInv p.2 ∧ p.2.created_at ≤ clock

/-- Every operation except `update_status`, run at an instant no earlier
than the clock bound, preserves the state invariant. -/
theorem MgrOp.apply_inv (cfg : IncidentManagerConfig) (st : ManagerState)
    (op : MgrOp) (t : Int) (hop : op.isUpdateStatus = false)
    (hinv : stInv st t) (ht : t ≤ op.time) :
    stInv (op.apply cfg st) op.time := by
  have hmono : ∀ p ∈ st.incidents, incInv p.2 ∧ p.2.created_at ≤ op.time :=
    fun p hp => ⟨(hinv p hp).1, le_trans (hinv p hp).2 ht⟩
  cases op with
  | evalEvent now ev corrs pats =>
      intro p hp
      simp only [MgrOp.apply, evaluate_event] at hp
      by_cases hsc : shouldCreate cfg ev corrs pats
      · rw [if_pos hsc] at hp
        by_cases hdup : cfg.enable_deduplication ∧
            (find_duplicate cfg
              (candidate_incident cfg now ev corrs pats st.next_incident_id)
              st.incidents).isSome
        · rw [if_pos hdup] at hp
          exact hmono p hp
        · rw [if_neg hdup] at hp
          simp only [List.mem_append, List.mem_singleton] at hp
          rcases hp with hp | hp
          · exact hmono p hp
          · subst hp
            exact ⟨⟨by simp [candidate_incident], by simp [candidate_incident]⟩,
              le_refl _⟩
      · rw [if_neg hsc] at hp
        exact hmono p hp
  | createInc now title sev ids =>
      intro p hp
      simp only [MgrOp.apply, create_incident, List.mem_append,
        List.mem_singleton] at hp
      rcases hp with hp | hp
      · exact hmono p hp
      · subst hp
        exact ⟨⟨by simp, by simp⟩, le_refl _⟩
  | updateStat id s => exact absurd hop (by simp [MgrOp.isUpdateStatus])
  | resolveInc now id r =>
      intro p hp
      simp only [MgrOp.apply, resolve_incident] at hp
      by_cases hfound : (st.incidents.find? (fun q => q.1 = id)).isSome
      · rw [if_pos hfound] at hp
        simp only [List.mem_map] at hp
        obtain ⟨q, hq, hpq⟩ := hp
        by_cases hid : q.1 = id
        · rw [if_pos hid] at hpq
          subst hpq
          refine ⟨⟨by simp, ?_⟩, (hmono q hq).2⟩
          intro u hu
          simp only [Option.mem_def, Option.some_inj] at hu
          subst hu
          exact (hmono q hq).2
        · rw [if_neg hid] at hpq
          subst hpq
          exact hmono q hq
      · rw [if_neg hfound] at hp
        exact hmono p hp
  | autoResolve now =>
      intro p hp
      simp only [MgrOp.apply, auto_resolve_stale_incidents] at hp
      by_cases hen : cfg.enable_auto_resolution = true
      · rw [if_pos hen] at hp
        simp only [List.mem_map] at hp
        obtain ⟨q, hq, hpq⟩ := hp
        by_cases hstale : (q.2.status = IncidentStatus.OPEN ∨
            q.2.status = IncidentStatus.INVESTIGATING) ∧
            q.2.created_at < now - cfg.resolution_timeout
        · rw [if_pos hstale] at hpq
          subst hpq
          refine ⟨⟨by simp, ?_⟩, (hmono q hq).2⟩
          intro u hu
          simp only [Option.mem_def, Option.some_inj] at hu
          subst hu
          exact (hmono q hq).2
        · rw [if_neg hstale] at hpq
          subst hpq
          exact hmono q hq
      · rw [if_neg hen] at hp
        exact hmono p hp

/-- Running a trace of non-`update_status` operations with nondecreasing
instants from an invariant state keeps the invariant (at some clock). -/
theorem mgrRun_inv (cfg : IncidentManagerConfig) :
    ∀ (ops : List MgrOp) (st : ManagerState) (t : Int),
    stInv st t → (∀ op ∈ ops, op.isUpdateStatus = false) →
    (∀ op ∈ ops, t ≤ op.time) →
    ops.Pairwise (fun a b => a.time ≤ b.time) →
    ∃ u, stInv (mgrRun cfg ops st) u := by
  intro ops
  induction ops with
  | nil => intro st t hinv _ _ _; exact ⟨t, hinv⟩
  | cons op rest ih =>
      intro st t hinv hupd hts hpw
      have hstep := MgrOp.apply_inv cfg st op t (hupd op (by simp)) hinv
        (hts op (by simp))
      rw [List.pairwise_cons] at hpw
      exact ih (op.apply cfg st) op.time hstep
        (fun o ho => hupd o (List.mem_cons_of_mem _ ho))
        (fun o ho => hpw.1 o ho) hpw.2

/-- C9 (amended): for every incident reachable from the fresh manager by a
trace of `evaluate_event`, `create_incident`, `resolve_incident` and
`auto_resolve_stale_incidents` calls at nondecreasing wall-clock instants —
`update_status` excluded, since it can set RESOLVED without stamping
`resolved_at` — `resolved_at` is set iff the status is RESOLVED, and any
`resolved_at` is at or after `created_at`. -/
theorem C9_resolved_at_invariant (cfg : IncidentManagerConfig) (ops : List MgrOp)
    (hupd : ∀ op ∈ ops, op.isUpdateStatus = false)
    (hpw : ops.Pairwise (fun a b => a.time ≤ b.time)) :
    ∀ p ∈ (mgrRun cfg ops ManagerState.init).incidents,
      (p.2.resolved_at.isSome ↔ p.2.status = .RESOLVED) ∧
      (∀ t ∈ p.2.resolved_at, p.2.created_at ≤ t) := by
  cases ops with
  | nil => intro p hp; exact absurd hp (by simp [mgrRun, ManagerState.init])
  | cons op rest =>
      have hinit : stInv ManagerState.init op.time := by
        intro p hp; exact absurd hp (by simp [ManagerState.init])
      obtain ⟨u, hu⟩ := mgrRun_inv cfg (op :: rest) ManagerState.init op.time hinit hupd
        (by
          intro o ho
          rcases List.mem_cons.mp ho with rfl | ho'
          · exact le_refl _
          · exact (List.pairwise_cons.mp hpw).1 o ho')
        hpw
      intro p hp
      exact (hu p hp).1

/-- Witness for C9: create at instant 0, resolve at instant 5. -/
theorem C9_resolved_at_invariant_witness :
    (∀ op ∈ [MgrOp.createInc 0 "t" .LOW [], MgrOp.resolveInc 5 "INC-000001" "fixed"],
        op.isUpdateStatus = false) ∧
    ([MgrOp.createInc 0 "t" .LOW [], MgrOp.resolveInc 5 "INC-000001" "fixed"].Pairwise
        (fun a b => a.time ≤ b.time)) ∧
    (∀ p ∈ (mgrRun IncidentManagerConfig.default
        [MgrOp.createInc 0 "t" .LOW [], MgrOp.resolveInc 5 "INC-000001" "fixed"]
        ManagerState.init).incidents,
      (p.2.resolved_at.isSome ↔ p.2.status = .RESOLVED) ∧
      (∀ t ∈ p.2.resolved_at, p.2.created_at ≤ t)) := by
  refine ⟨?_, ?_, ?_⟩
  · intro op hop
    rcases List.mem_cons.mp hop with rfl | hop'
    · rfl
    · rcases List.mem_cons.mp hop' with rfl | h
      · rfl
      · exact absurd h (List.not_mem_nil _)
  · exact List.pairwise_cons.mpr
      ⟨by
        intro o ho
        rcases List.mem_cons.mp ho with rfl | h
        · norm_num [MgrOp.time]
        · exact absurd h (List.not_mem_nil _),
        List.pairwise_singleton _ _⟩
  · exact C9_resolved_at_invariant IncidentManagerConfig.default _
      (by
        intro op hop
        rcases List.mem_cons.mp hop with rfl | hop'
        · rfl
        · rcases List.mem_cons.mp hop' with rfl | h
          · rfl
          · exact absurd h (List.not_mem_nil _))
      (List.pairwise_cons.mpr
        ⟨by
          intro o ho
          rcases List.mem_cons.mp ho with rfl | h
          · norm_num [MgrOp.time]
          · exact absurd h (List.not_mem_nil _),
          List.pairwise_singleton _ _⟩)

/-- C9 counterexample: create an incident, then `update_status` it to
RESOLVED — the stored incident is RESOLVED with `resolved_at` unset,
violating the claimed invariant for a reachable incident. -/
theorem C9_counterexample :
    ∃ p ∈ (mgrRun IncidentManagerConfig.default
        [MgrOp.createInc 0 "t" .LOW [], MgrOp.updateStat "INC-000001" .RESOLVED]
        ManagerState.init).incidents,
      p.2.status = .RESOLVED ∧ p.2.resolved_at = none := by
  have h : (mgrRun IncidentManagerConfig.default
      [MgrOp.createInc 0 "t" .LOW [], MgrOp.updateStat "INC-000001" .RESOLVED]
      ManagerState.init).incidents
      = [("INC-000001",
          ⟨"INC-000001", "t", .LOW, .RESOLVED, 0, none, [], none, 0, 0⟩)] := rfl
  rw [h]
  exact ⟨("INC-000001", ⟨"INC-000001", "t", .LOW, .RESOLVED, 0, none, [], none, 0, 0⟩),
    List.mem_singleton.mpr rfl, rfl, rfl⟩

/-! ### Anomaly detectors (anomaly_detector.h / anomaly_detector.cpp)

Scores are C++ `double`, modelled as `ℝ` (the code applies `tanh` and
`sqrt`).  Per-metric maps are total functions with the value-initialised
default, matching `unordered_map::operator[]`; a metric name absent from
the C++ map behaves exactly like the default entry (`count = 0 < 30`,
empty history), so the `find == end()` branches coincide with the
default-entry branches. -/

/-- `ZScoreDetector::Stats` (anomaly_detector.h). -/
structure ZStats where
  mean : ℝ
  m2 : ℝ
  count : Nat

/-- The value-initialised per-metric statistics. -/
def ZStats.fresh : ZStats := ⟨0, 0, 0⟩

/-- Mirror of `Stats::stddev`: `count > 1 ? sqrt(m2 / (count - 1)) : 0.0`. -/
noncomputable def ZStats.stddev (s : ZStats) : ℝ :=
  if s.count > 1 then Real.sqrt (s.m2 / ((s.count - 1 : Nat) : ℝ)) else 0

/-- `class ZScoreDetector`: normalisation threshold (default 3.0) and the
per-metric Welford statistics. -/
structure ZScoreDetector where
  threshold : ℝ
  stats : String → ZStats

/-- The metric loop of `ZScoreDetector::score` (anomaly_detector.cpp lines
23-47): skip metrics with fewer than 30 samples; on a constant metric
(stddev < 1e-6) return 1.0 immediately if the value moved by more than
1e-6, else skip; otherwise accumulate `max` of `tanh(z / threshold)`. -/
noncomputable def zscoreLoop (det : ZScoreDetector) :
    List (String × ℝ) → ℝ → ℝ
  | [], acc => acc
  | (name, value) :: rest, acc =>
      let s := det.stats name
      if s.count < 30 then zscoreLoop det rest acc
      else if s.stddev < 1e-6 then
        if |value - s.mean| > 1e-6 then 1
        else zscoreLoop det rest acc
      else zscoreLoop det rest
        (max acc (Real.tanh (|value - s.mean| / s.stddev / det.threshold)))

/-- Mirror of `ZScoreDetector::score`. -/
noncomputable def ZScoreDetector.score (det : ZScoreDetector) (e : LogEvent ℝ) : ℝ :=
  if e.metrics = [] then 0 else zscoreLoop det e.metrics 0

/-- One Welford update (`ZScoreDetector::train` body, anomaly_detector.cpp
lines 55-64). -/
noncomputable def welford (s : ZStats) (value : ℝ) : ZStats :=
  let count := s.count + 1
  let delta := value - s.mean
  let mean := s.mean + delta / (count : ℝ)
  let delta2 := value - mean
  ⟨mean, s.m2 + delta * delta2, count⟩

/-- Mirror of `ZScoreDetector::train`. -/
noncomputable def ZScoreDetector.train (det : ZScoreDetector) (e : LogEvent ℝ) :
    ZScoreDetector :=
  { det with
      stats := e.metrics.foldl
        (fun st p => Function.update st p.1 (welford (st p.1) p.2)) det.stats }

/-- `MovingAverageDetector::History`. -/
structure MAHistory where
  values : List ℝ
  sum : ℝ

/-- The value-initialised per-metric history. -/
def MAHistory.fresh : MAHistory := ⟨[], 0⟩

/-- `class MovingAverageDetector`. -/
structure MovingAverageDetector where
  window_size : Nat
  threshold : ℝ
  history : String → MAHistory

/-- The metric loop of `MovingAverageDetector::score` (anomaly_detector.cpp
lines 80-107): skip metrics with fewer than 10 samples; constant-series
special case mirrors the Z-score one; otherwise accumulate
`max` of `tanh(|value - avg| / (threshold * MAD))`. -/
noncomputable def movAvgLoop (det : MovingAverageDetector) :
    List (String × ℝ) → ℝ → ℝ
  | [], acc => acc
  | (name, value) :: rest, acc =>
      let h := det.history name
      if h.values.length < 10 then movAvgLoop det rest acc
      else
        let avg := h.sum / (h.values.length : ℝ)
        let mad := (h.values.map (fun v => |v - avg|)).sum / (h.values.length : ℝ)
        if mad < 1e-6 then
          if |value - avg| > 1e-6 then 1
          else movAvgLoop det rest acc
        else movAvgLoop det rest
          (max acc (Real.tanh (|value - avg| / (det.threshold * mad))))

/-- Mirror of `MovingAverageDetector::score`. -/
noncomputable def MovingAverageDetector.score (det : MovingAverageDetector)
    (e : LogEvent ℝ) : ℝ :=
  if e.metrics = [] then 0 else movAvgLoop det e.metrics 0

/-- Mirror of `MovingAverageDetector::train`: append the value, add it to
the running sum, and evict the oldest sample past the window. -/
noncomputable def MovingAverageDetector.train (det : MovingAverageDetector)
    (e : LogEvent ℝ) : MovingAverageDetector :=
  { det with
      history := e.metrics.foldl
        (fun st p =>
          let h := st p.1
          let h1 : MAHistory := ⟨h.values ++ [p.2], h.sum + p.2⟩
          let h2 : MAHistory :=
            if h1.values.length > det.window_size then
              ⟨h1.values.tail, h1.sum - h1.values.headI⟩
            else h1
          Function.update st p.1 h2) det.history }

/-- `RateDetector::RateStats`. -/
structure RateStats where
  timestamps : List Int
  baseline_rate : ℝ

/-- The value-initialised per-event-type rate statistics. -/
def RateStats.fresh : RateStats := ⟨[], 0⟩

/-- `class RateDetector`: window as a nanosecond count. -/
structure RateDetector where
  window : Int
  rates : String → RateStats

/-- Mirror of `RateDetector::score` (anomaly_detector.cpp lines 132-171):
prune timestamps older than the window (the front of the deque holds the
oldest), compute the current rate over the window in seconds, and score
spikes (`ratio > 2`) and drops (`ratio < 0.5`) against the baseline,
capped at 1.  The mutation of the pruned deque leaves the returned value
unchanged, so the model returns just the score. -/
noncomputable def RateDetector.score (det : RateDetector) (e : LogEvent ℝ) : ℝ :=
  let rs := det.rates e.event_type
  if rs.timestamps = [] then 0
  else
    let cutoff := e.timestamp - det.window
    let ts := rs.timestamps.dropWhile (fun t => t < cutoff)
    let current_rate := (ts.length : ℝ) / ((det.window : ℝ) / 1000000000)
    if rs.baseline_rate < 0.1 then 0
    else
      let ratio := current_rate / rs.baseline_rate
      if ratio > 2 then min 1 ((ratio - 2) / 3)
      else if ratio < 0.5 then min 1 ((0.5 - ratio) / 0.5)
      else 0

/-- Mirror of `RateDetector::train` (anomaly_detector.cpp lines 173-197):
push the timestamp, count the in-window ones, and fold the current rate
into the baseline (adopt it below 0.1, else EMA with alpha 0.1). -/
noncomputable def RateDetector.train (det : RateDetector) (e : LogEvent ℝ) :
    RateDetector :=
  let rs := det.rates e.event_type
  let ts := rs.timestamps ++ [e.timestamp]
  let cutoff := e.timestamp - det.window
  let count := (ts.filter (fun t => t ≥ cutoff)).length
  let current_rate := (count : ℝ) / ((det.window : ℝ) / 1000000000)
  let baseline :=
    if rs.baseline_rate < 0.1 then current_rate
    else 0.9 * rs.baseline_rate + 0.1 * current_rate
  { det with rates := Function.update det.rates e.event_type ⟨ts, baseline⟩ }

/-- `EnsembleDetector::CombineMethod`. -/
inductive CombineMethod where
  | MAX
  | AVERAGE
  | WEIGHTED
  | VOTING
deriving DecidableEq

/-- A concrete detector of the ensemble (the `AnomalyDetector` virtual
interface, closed over the three implementations the library defines). -/
inductive Detector where
  | zscore (d : ZScoreDetector)
  | movavg (d : MovingAverageDetector)
  | rate (d : RateDetector)

/-- Virtual dispatch of `score`. -/
noncomputable def Detector.score : Detector → LogEvent ℝ → ℝ
  | .zscore d, e => d.score e
  | .movavg d, e => d.score e
  | .rate d, e => d.score e

/-- Virtual dispatch of `train`. -/
noncomputable def Detector.train : Detector → LogEvent ℝ → Detector
  | .zscore d, e => .zscore (d.train e)
  | .movavg d, e => .movavg (d.train e)
  | .rate d, e => .rate (d.train e)

/-- `class EnsembleDetector`: combine method plus the weighted children. -/
structure EnsembleDetector where
  method : CombineMethod
  detectors : List (Detector × ℝ)

/-- Mirror of `EnsembleDetector::score` (anomaly_detector.cpp lines
207-250). -/
noncomputable def EnsembleDetector.score (ens : EnsembleDetector)
    (e : LogEvent ℝ) : ℝ :=
  match ens.detectors with
  | [] => 0
  | _ :: _ =>
    let scores := ens.detectors.map (fun di => di.1.score e)
    match ens.method with
    | .MAX =>
        match scores with
        | [] => 0
        | s :: rest => rest.foldl max s
    | .AVERAGE => scores.sum / (scores.length : ℝ)
    | .WEIGHTED =>
        let weighted := (ens.detectors.map (fun di => di.1.score e * di.2)).sum
        let weight_sum := (ens.detectors.map (fun di => di.2)).sum
        if weight_sum > 0 then weighted / weight_sum else 0
    | .VOTING =>
        ((scores.filter (fun s => s ≥ 0.5)).length : ℝ) / (scores.length : ℝ)

/-- Mirror of `EnsembleDetector::train`: fan out to every child. -/
noncomputable def EnsembleDetector.train (ens : EnsembleDetector)
    (e : LogEvent ℝ) : EnsembleDetector :=
  { ens with detectors := ens.detectors.map (fun di => (di.1.train e, di.2)) }

/-- Mirror of `DetectorFactory::create_default`: MAX ensemble of
Z-score(3.0) weight 1.0, MovingAverage(100, 2.5) weight 1.0 and
Rate(60 s) weight 0.8. -/
noncomputable def DetectorFactory.create_default : EnsembleDetector :=
  ⟨.MAX,
    [(.zscore ⟨3.0, fun _ => ZStats.fresh⟩, 1.0),
     (.movavg ⟨100, 2.5, fun _ => MAHistory.fresh⟩, 1.0),
     (.rate ⟨60 * 1000000000, fun _ => RateStats.fresh⟩, 0.8)]⟩

/-- `tanh` never exceeds 1. -/
theorem tanh_le_one (x : ℝ) : Real.tanh x ≤ 1 := by
  rw [Real.tanh_eq_sinh_div_cosh]
  exact le_of_lt ((div_lt_one (Real.cosh_pos x)).mpr (Real.sinh_lt_cosh x))

/-- The Z-score metric loop stays in `[0, 1]` from any accumulator in
`[0, 1]`. -/
theorem zscoreLoop_bounds (det : ZScoreDetector) (l : List (String × ℝ)) :
    ∀ acc, 0 ≤ acc → acc ≤ 1 →
    0 ≤ zscoreLoop det l acc ∧ zscoreLoop det l acc ≤ 1 := by
  induction l with
  | nil => intro acc h0 h1; exact ⟨h0, h1⟩
  | cons p rest ih =>
      intro acc h0 h1
      obtain ⟨name, value⟩ := p
      rw [zscoreLoop]
      by_cases hc : (det.stats name).count < 30
      · simp only [if_pos hc]; exact ih acc h0 h1
      · simp only [if_neg hc]
        by_cases hs : (det.stats name).stddev < 1e-6
        · simp only [if_pos hs]
          by_cases hd : |value - (det.stats name).mean| > 1e-6
          · simp only [if_pos hd]; norm_num
          · simp only [if_neg hd]; exact ih acc h0 h1
        · simp only [if_neg hs]
          exact ih _ (le_max_of_le_left h0)
            (max_le h1 (tanh_le_one _))

/-- `ZScoreDetector::score` lies in `[0, 1]`. -/
theorem ZScoreDetector.zscore_score_bounds (det : ZScoreDetector) (e : LogEvent ℝ) :
    0 ≤ det.score e ∧ det.score e ≤ 1 := by
  rw [ZScoreDetector.score]
  by_cases h : e.metrics = []
  · simp [h]
  · simp only [if_neg h]
    exact zscoreLoop_bounds det e.metrics 0 le_rfl (by norm_num)

/-- The moving-average metric loop stays in `[0, 1]` from any accumulator
in `[0, 1]`. -/
theorem movAvgLoop_bounds (det : MovingAverageDetector) (l : List (String × ℝ)) :
    ∀ acc, 0 ≤ acc → acc ≤ 1 →
    0 ≤ movAvgLoop det l acc ∧ movAvgLoop det l acc ≤ 1 := by
  induction l with
  | nil => intro acc h0 h1; exact ⟨h0, h1⟩
  | cons p rest ih =>
      intro acc h0 h1
      obtain ⟨name, value⟩ := p
      rw [movAvgLoop]
      by_cases hc : (det.history name).values.length < 10
      · simp only [if_pos hc]; exact ih acc h0 h1
      · simp only [if_neg hc]
        by_cases hm : ((det.history name).values.map
            (fun v => |v - (det.history name).sum /
              ((det.history name).values.length : ℝ)|)).sum /
            ((det.history name).values.length : ℝ) < 1e-6
        · simp only [if_pos hm]
          by_cases hd : |value - (det.history name).sum /
              ((det.history name).values.length : ℝ)| > 1e-6
          · simp only [if_pos hd]; norm_num
          · simp only [if_neg hd]; exact ih acc h0 h1
        · simp only [if_neg hm]
          exact ih _ (le_max_of_le_left h0)
            (max_le h1 (tanh_le_one _))

/-- `MovingAverageDetector::score` lies in `[0, 1]`. -/
theorem MovingAverageDetector.movavg_score_bounds (det : MovingAverageDetector)
    (e : LogEvent ℝ) : 0 ≤ det.score e ∧ det.score e ≤ 1 := by
  rw [MovingAverageDetector.score]
  by_cases h : e.metrics = []
  · simp [h]
  · simp only [if_neg h]
    exact movAvgLoop_bounds det e.metrics 0 le_rfl (by norm_num)

/-- `RateDetector::score` lies in `[0, 1]`: every branch returns 0 or a
positive quantity capped at 1. -/
theorem RateDetector.rate_score_bounds (det : RateDetector) (e : LogEvent ℝ) :
    0 ≤ det.score e ∧ det.score e ≤ 1 := by
  rw [RateDetector.score]
  by_cases h0 : (det.rates e.event_type).timestamps = []
  · simp [h0]
  · simp only [if_neg h0]
    by_cases h1 : (det.rates e.event_type).baseline_rate < 0.1
    · simp only [if_pos h1]; norm_num
    · simp only [if_neg h1]
      set ratio := ((((det.rates e.event_type).timestamps.dropWhile
          (fun t => t < e.timestamp - det.window)).length : ℝ) /
          ((det.window : ℝ) / 1000000000)) /
          (det.rates e.event_type).baseline_rate with hratio
      by_cases h2 : ratio > 2
      · simp only [if_pos h2]
        exact ⟨le_min (by norm_num) (div_nonneg (by linarith) (by norm_num)),
          min_le_left _ _⟩
      · simp only [if_neg h2]
        by_cases h3 : ratio < 0.5
        · simp only [if_pos h3]
          exact ⟨le_min (by norm_num) (div_nonneg (by linarith) (by norm_num)),
            min_le_left _ _⟩
        · simp only [if_neg h3]; norm_num

/-- Every concrete detector's score lies in `[0, 1]`. -/
theorem Detector.detector_score_bounds (d : Detector) (e : LogEvent ℝ) :
    0 ≤ d.score e ∧ d.score e ≤ 1 := by
  cases d with
  | zscore d => exact d.zscore_score_bounds e
  | movavg d => exact d.movavg_score_bounds e
  | rate d => exact d.rate_score_bounds e

/-- Folding `max` over values in `[0, 1]` stays in `[0, 1]`. -/
theorem foldl_max_bounds (l : List ℝ) :
    ∀ s, 0 ≤ s → s ≤ 1 → (∀ x ∈ l, 0 ≤ x ∧ x ≤ 1) →
    0 ≤ l.foldl max s ∧ l.foldl max s ≤ 1 := by
  induction l with
  | nil => intro s h0 h1 _; exact ⟨h0, h1⟩
  | cons x rest ih =>
      intro s h0 h1 hl
      rw [List.foldl_cons]
      exact ih (max s x) (le_max_of_le_left h0)
        (max_le h1 (hl x (by simp)).2)
        (fun y hy => hl y (List.mem_cons_of_mem _ hy))

/-- The average of a nonempty list of values in `[0, 1]` lies in `[0, 1]`. -/
theorem avg_bounds (l : List ℝ) (hne : l ≠ []) (h : ∀ x ∈ l, 0 ≤ x ∧ x ≤ 1) :
    0 ≤ l.sum / (l.length : ℝ) ∧ l.sum / (l.length : ℝ) ≤ 1 := by
  have hlen : 0 < (l.length : ℝ) := by
    have := List.length_pos.mpr hne
    exact_mod_cast this
  constructor
  · exact div_nonneg (List.sum_nonneg (fun x hx => (h x hx).1)) (le_of_lt hlen)
  · rw [div_le_one hlen]
    have := List.sum_le_card_nsmul l 1 (fun x hx => (h x hx).2)
    simpa using this

/-- `EnsembleDetector::score` lies in `[0, 1]` for every combine method,
provided the weights are nonnegative (weights only matter to WEIGHTED;
the library's default ensemble uses 1.0, 1.0, 0.8). -/
theorem EnsembleDetector.ensemble_score_bounds (ens : EnsembleDetector) (e : LogEvent ℝ)
    (hw : ∀ dw ∈ ens.detectors, 0 ≤ dw.2) :
    0 ≤ ens.score e ∧ ens.score e ≤ 1 := by
  rw [EnsembleDetector.score]
  cases hd : ens.detectors with
  | nil => norm_num
  | cons d0 drest =>
    rw [hd] at hw
    have hmapne : (d0 :: drest).map (fun di => di.1.score e) ≠ [] := by simp
    have hscores : ∀ x ∈ (d0 :: drest).map (fun di => di.1.score e),
        0 ≤ x ∧ x ≤ 1 := by
      intro x hx
      obtain ⟨di, _, rfl⟩ := List.mem_map.mp hx
      exact di.1.detector_score_bounds e
    cases ens.method with
    | MAX =>
        simp only [List.map_cons]
        refine foldl_max_bounds _ _ (d0.1.detector_score_bounds e).1 (d0.1.detector_score_bounds e).2 ?_
        intro y hy
        obtain ⟨di, _, rfl⟩ := List.mem_map.mp hy
        exact di.1.detector_score_bounds e
    | AVERAGE => exact avg_bounds _ hmapne hscores
    | WEIGHTED =>
        by_cases hws : ((d0 :: drest).map (fun di => di.2)).sum > 0
        · simp only [if_pos hws]
          constructor
          · apply div_nonneg _ (le_of_lt hws)
            apply List.sum_nonneg
            intro x hx
            obtain ⟨di, hdi, rfl⟩ := List.mem_map.mp hx
            exact mul_nonneg (di.1.detector_score_bounds e).1 (hw di hdi)
          · rw [div_le_one hws]
            apply List.sum_le_sum
            intro di hdi
            calc di.1.score e * di.2 ≤ 1 * di.2 :=
                  mul_le_mul_of_nonneg_right (di.1.detector_score_bounds e).2 (hw di hdi)
              _ = di.2 := one_mul _
        · simp only [if_neg hws]; norm_num
    | VOTING =>
        have hlen : 0 < (((d0 :: drest).map (fun di => di.1.score e)).length : ℝ) := by
          simp
          positivity
        constructor
        · exact div_nonneg (by positivity) (le_of_lt hlen)
        · rw [div_le_one hlen]
          exact_mod_cast Nat.cast_le.mpr (List.length_filter_le _ _)

/-- An event carrying a single metric. -/
noncomputable def metricEvent (m : String) (v : ℝ) : LogEvent ℝ :=
  ⟨0, "", 0, .INFO, "", [], [(m, v)], [], "", "", 0, none⟩

/-- A Z-score detector (threshold `th`) trained `n` times on events whose
only metric `m` carries the constant value `c`. -/
noncomputable def zsTrainN (th : ℝ) (m : String) (c : ℝ) : Nat → ZScoreDetector
  | 0 => ⟨th, fun _ => ZStats.fresh⟩
  | n + 1 => (zsTrainN th m c n).train (metricEvent m c)

/-- The first Welford update from the value-initialised statistics. -/
theorem welford_fresh (c : ℝ) : welford ZStats.fresh c = ⟨c, 0, 1⟩ := by
  simp only [welford, ZStats.fresh, ZStats.mk.injEq]
  norm_num

/-- A Welford update with the current mean leaves mean and `M2` unchanged. -/
theorem welford_const (c : ℝ) (k : Nat) : welford ⟨c, 0, k⟩ c = ⟨c, 0, k + 1⟩ := by
  simp [welford]

/-- After `n ≥ 1` constant trainings the statistics for `m` are
`(mean c, M2 0, count n)` and every other metric is untouched. -/
theorem zsTrainN_stats (th : ℝ) (m : String) (c : ℝ) :
    ∀ n, 1 ≤ n →
    (zsTrainN th m c n).stats = Function.update (fun _ => ZStats.fresh) m ⟨c, 0, n⟩ ∧
    (zsTrainN th m c n).threshold = th := by
  intro n
  induction n with
  | zero => intro h; exact absurd h (by norm_num)
  | succ k ih =>
      intro _
      rcases Nat.eq_zero_or_pos k with rfl | hk
      · constructor
        · show (ZScoreDetector.train _ _).stats = _
          rw [ZScoreDetector.train]
          simp only [metricEvent, zsTrainN, List.foldl_cons, List.foldl_nil]
          rw [welford_fresh]
        · rfl
      · obtain ⟨hst, hth⟩ := ih hk
        constructor
        · show (ZScoreDetector.train _ _).stats = _
          rw [ZScoreDetector.train]
          simp only [metricEvent, List.foldl_cons, List.foldl_nil]
          rw [hst]
          rw [Function.update_same, welford_const, Function.update_idem]
        · show (ZScoreDetector.train _ _).threshold = th
          rw [ZScoreDetector.train]
          exact hth

/-- C4 (amended): after at least 30 constant-`c` trainings of metric `m`,
scoring the metric at `c` returns 0 and scoring it at `c + ε` for any
`ε > 1e-6` returns 1.0 (the constant-metric special case: the learned
stddev is 0 < 1e-6, and a deviation above 1e-6 yields an immediate 1.0). -/
theorem C4_zscore_constant_training (th : ℝ) (m : String) (c ε : ℝ) (n : Nat)
    (h30 : 30 ≤ n) (heps : ε > 1e-6) :
    (zsTrainN th m c n).score (metricEvent m c) = 0 ∧
    (zsTrainN th m c n).score (metricEvent m (c + ε)) = 1 := by
  obtain ⟨hst, -⟩ := zsTrainN_stats th m c n (by omega)
  have hs : (zsTrainN th m c n).stats m = ⟨c, 0, n⟩ := by
    rw [hst, Function.update_same]
  have h1 : ¬ ((⟨c, 0, n⟩ : ZStats).count < 30) := by
    show ¬ n < 30
    omega
  have h2 : (⟨c, 0, n⟩ : ZStats).stddev < 1e-6 := by
    rw [ZStats.stddev, if_pos (show (⟨c, 0, n⟩ : ZStats).count > 1 from by
      show 1 < n
      omega)]
    show Real.sqrt (0 / _) < 1e-6
    norm_num
  constructor
  · rw [ZScoreDetector.score, if_neg (by simp [metricEvent])]
    show zscoreLoop _ [(m, c)] 0 = 0
    have hdev : ¬ (|c - (⟨c, 0, n⟩ : ZStats).mean| > 1e-6) := by
      show ¬ (|c - c| > 1e-6)
      norm_num
    simp only [zscoreLoop, hs, h1, h2, hdev, if_false, if_true, ite_false, ite_true,
      if_neg h1, if_pos h2, if_neg hdev]
  · rw [ZScoreDetector.score, if_neg (by simp [metricEvent])]
    show zscoreLoop _ [(m, c + ε)] 0 = 1
    have hdev : |c + ε - (⟨c, 0, n⟩ : ZStats).mean| > 1e-6 := by
      show |c + ε - c| > 1e-6
      rw [show c + ε - c = ε by ring, abs_of_pos (by
        have : (0 : ℝ) < 1e-6 := by norm_num
        linarith)]
      exact heps
    simp only [zscoreLoop, hs, if_neg h1, if_pos h2, if_pos hdev]

/-- Witness for C4 at 30 trainings of constant 0 and ε = 1. -/
theorem C4_zscore_constant_training_witness :
    (30 ≤ 30) ∧ ((1 : ℝ) > 1e-6) ∧
    (zsTrainN 3 "m" 0 30).score (metricEvent "m" 0) = 0 ∧
    (zsTrainN 3 "m" 0 30).score (metricEvent "m" (0 + 1)) = 1 := by
  have h := C4_zscore_constant_training 3 "m" 0 1 30 (by norm_num) (by norm_num)
  exact ⟨by norm_num, by norm_num, h.1, h.2⟩

/-- C4 counterexample: after a single constant training (count 1 < 30) the
detector scores the deviated value 0, not the claimed 1.0 — the claim
omits the 30-sample requirement. -/
theorem C4_counterexample :
    (zsTrainN 3 "m" 0 1).score (metricEvent "m" (0 + 2)) = 0 ∧
    ((2 : ℝ) > 1e-6) ∧ ((0 : ℝ) ≠ 1) := by
  refine ⟨?_, by norm_num, by norm_num⟩
  obtain ⟨hst, -⟩ := zsTrainN_stats 3 "m" 0 1 le_rfl
  have hs : (zsTrainN 3 "m" 0 1).stats "m" = ⟨0, 0, 1⟩ := by
    rw [hst, Function.update_same]
  have h1 : ((⟨0, 0, 1⟩ : ZStats) : ZStats).count < 30 := by
    show (1 : Nat) < 30
    norm_num
  rw [ZScoreDetector.score, if_neg (by simp [metricEvent])]
  show zscoreLoop _ [("m", 0 + 2)] 0 = 0
  simp only [zscoreLoop, hs, if_pos h1]

/-! ### Pattern engine (pattern_engine.h / pattern_engine.cpp)

Pattern scores are exact decimals, modelled as `ℚ`.  A compiled
`std::regex` is modelled as an opaque Boolean matcher `String → Bool` (the
regex engine is an external component); every other ingredient of matching
is structural.  `match_count_` (used only by `description()`) and the
description strings are omitted.  `std::sort` is modelled as a sort by the
same comparator (`a.score > b.score`); the comparator's sortedness
guarantee is what the code relies on. -/

/-- `SequentialPattern::Step`. -/
structure Step where
  event_type : String
  required_entities : List String
  entity_matcher : Option (String → Bool)
  max_time_since_prev : Int

/-- `FrequencyPattern::FrequencyType`. -/
inductive FrequencyType where
  | BURST
  | REPEATED
  | ABSENCE

/-- `class FrequencyPattern` with its mutable history. -/
structure FrequencyPatternState where
  name : String
  event_type : String
  ftype : FrequencyType
  threshold : Nat
  window : Int
  event_times : List Int
  entity_times : String → List Int

/-- `class RegexPattern`: target field and the compiled regex as a
matcher. -/
structure RegexPatternState where
  name : String
  field : String
  matcher : String → Bool

/-- The `PatternMatcher` interface, closed over the three implementations
the library defines. -/
inductive Pattern where
  | seq (name : String) (steps : List Step)
  | freq (p : FrequencyPatternState)
  | regex (p : RegexPatternState)

/-- Mirror of `SequentialPattern::matches_step`: type equality, required
entity keys present, and (when set) the entity-value regex matching some
entity value. -/
def matches_step {α : Type} (e : LogEvent α) (st : Step) : Bool :=
  decide (e.event_type = st.event_type) &&
  st.required_entities.all (fun r => e.entities.any (fun kv => decide (kv.1 = r))) &&
  (match st.entity_matcher with
   | none => true
   | some rx => e.entities.any (fun kv => rx kv.2))

/-- The partial-match score `(1 - current_step / total_steps) * 0.5`. -/
def partialScore (steps : List Step) (cs : Nat) : ℚ :=
  (1 - (cs : ℚ) / (steps.length : ℚ)) * 0.5

/-- The backwards walk of `SequentialPattern::match` (pattern_engine.cpp
lines 36-64): the list argument is the context newest-first (`rbegin`),
`cs ≥ 1` the index of the step still to be matched plus one, `ct` the
timestamp of the later matched step. -/
def seqWalk {α : Type} (steps : List Step) :
    List (LogEvent α) → Nat → Int → ℚ
  | [], cs, _ => partialScore steps cs
  | ev :: rest, cs, ct =>
      let prev := steps.getD (cs - 1) ⟨"", [], none, 0⟩
      if ct - ev.timestamp > prev.max_time_since_prev then partialScore steps cs
      else if matches_step ev prev then
        (if cs - 1 = 0 then 1 else seqWalk steps rest (cs - 1) ev.timestamp)
      else seqWalk steps rest cs ct

/-- Mirror of `SequentialPattern::match` (pattern_engine.cpp lines 14-65):
empty patterns score 0; the incoming event must match the last step;
single-step patterns score 1.0; otherwise walk the context backwards. -/
def seqMatch {α : Type} (steps : List Step) (e : LogEvent α)
    (context : List (LogEvent α)) : ℚ :=
  match steps with
  | [] => 0
  | _ :: _ =>
      if matches_step e (steps.getLastD ⟨"", [], none, 0⟩) then
        if steps.length = 1 then 1
        else seqWalk steps context.reverse (steps.length - 1) e.timestamp
      else 0

/-- Mirror of `FrequencyPattern::match` (pattern_engine.cpp lines 117-171).
The lazy pruning of old timestamps (`pop_front` while the front is older
than the window) is `dropWhile`; the mutation does not change the returned
score. -/
def freqMatch {α : Type} (p : FrequencyPatternState) (e : LogEvent α) : ℚ :=
  if e.event_type = p.event_type then
    let cutoff := e.timestamp - p.window
    let count := (p.event_times.dropWhile (fun t => decide (t < cutoff))).length
    match p.ftype with
    | .BURST =>
        if count ≥ p.threshold then
          dmin 1 (0.7 + ((count - p.threshold + 1 : Nat) : ℚ) / (p.threshold : ℚ) * 0.3)
        else 0
    | .REPEATED =>
        if e.entities.any (fun kv =>
            ((p.entity_times kv.2).dropWhile (fun t => decide (t < cutoff))).length
              ≥ p.threshold) then 1
        else 0
    | .ABSENCE => 0
  else 0

/-- Mirror of `RegexPattern::match` (pattern_engine.cpp lines 211-230). -/
def regexMatch {α : Type} (p : RegexPatternState) (e : LogEvent α) : ℚ :=
  if p.field = "message" then (if p.matcher e.message then 1 else 0)
  else if p.field = "event_type" then (if p.matcher e.event_type then 1 else 0)
  else
    match e.entities.find? (fun kv => decide (kv.1 = p.field)) with
    | some kv => if p.matcher kv.2 then 1 else 0
    | none => 0

/-- Virtual dispatch of `PatternMatcher::match`. -/
def Pattern.matchScore {α : Type} (p : Pattern) (e : LogEvent α)
    (context : List (LogEvent α)) : ℚ :=
  match p with
  | .seq _ steps => seqMatch steps e context
  | .freq fp => freqMatch fp e
  | .regex rp => regexMatch rp e

/-- Virtual dispatch of `PatternMatcher::train` (sequential and regex
patterns do not train; frequency patterns append the event's timestamp and
per-entity-value timestamps). -/
def Pattern.train {α : Type} (p : Pattern) (e : LogEvent α) : Pattern :=
  match p with
  | .seq n steps => .seq n steps
  | .freq fp =>
      if e.event_type = fp.event_type then
        .freq { fp with
            event_times := fp.event_times ++ [e.timestamp],
            entity_times := e.entities.foldl
              (fun et kv => Function.update et kv.2 (et kv.2 ++ [e.timestamp]))
              fp.entity_times }
      else .freq fp
  | .regex rp => .regex rp

/-- The name of a pattern (`PatternMatcher::name`). -/
def Pattern.patName : Pattern → String
  | .seq n _ => n
  | .freq fp => fp.name
  | .regex rp => rp.name

/-- `PatternEngine::PatternMatch` (description omitted). -/
structure PatternMatch where
  pattern : Pattern
  score : ℚ

/-- Descending order on match scores: the sortedness `std::sort` with
comparator `a.score > b.score` guarantees. -/
def scoreGE (a b : PatternMatch) : Prop := b.score ≤ a.score

instance : DecidableRel scoreGE := fun a b =>
  inferInstanceAs (Decidable (b.score ≤ a.score))

instance : IsTotal PatternMatch scoreGE := ⟨fun a b => le_total b.score a.score⟩

instance : IsTrans PatternMatch scoreGE :=
  ⟨fun _ _ _ h1 h2 => le_trans h2 h1⟩

/-- Mirror of `PatternEngine::match_patterns` (pattern_engine.cpp lines
245-268): keep matches scoring strictly above 0.5, sorted by descending
score. -/
def match_patterns {α : Type} (ps : List Pattern) (e : LogEvent α)
    (context : List (LogEvent α)) : List PatternMatch :=
  List.insertionSort scoreGE
    (ps.filterMap fun p =>
      let s := p.matchScore e context
      if s > 0.5 then some ⟨p, s⟩ else none)

/-- Mirror of `PatternEngine::train_all`. -/
def train_all {α : Type} (ps : List Pattern) (e : LogEvent α) : List Pattern :=
  ps.map (fun p => p.train e)

/-- Whether a pattern is a sequential pattern. -/
def Pattern.isSeq : Pattern → Prop
  | .seq _ _ => True
  | _ => False

/-- A partial sequential score never exceeds 0.5. -/
theorem partialScore_le_half (steps : List Step) (cs : Nat) :
    partialScore steps cs ≤ 0.5 := by
  rw [partialScore]
  have hx : (0 : ℚ) ≤ (cs : ℚ) / (steps.length : ℚ) := by positivity
  nlinarith

/-- The backwards walk returns 1 (complete match) or a partial score. -/
theorem seqWalk_cases {α : Type} (steps : List Step) :
    ∀ (l : List (LogEvent α)) (cs : Nat) (ct : Int),
    seqWalk steps l cs ct = 1 ∨ ∃ k, seqWalk steps l cs ct = partialScore steps k := by
  intro l
  induction l with
  | nil => intro cs ct; exact Or.inr ⟨cs, rfl⟩
  | cons ev rest ih =>
      intro cs ct
      rw [seqWalk]
      by_cases h1 : ct - ev.timestamp >
          (steps.getD (cs - 1) ⟨"", [], none, 0⟩).max_time_since_prev
      · rw [if_pos h1]; exact Or.inr ⟨cs, rfl⟩
      · rw [if_neg h1]
        by_cases h2 : matches_step ev (steps.getD (cs - 1) ⟨"", [], none, 0⟩)
        · rw [if_pos h2]
          by_cases h3 : cs - 1 = 0
          · rw [if_pos h3]; exact Or.inl rfl
          · rw [if_neg h3]; exact ih (cs - 1) ev.timestamp
        · rw [if_neg h2]; exact ih cs ct

/-- A sequential score strictly above 0.5 is a complete match scoring
exactly 1. -/
theorem seqMatch_gt_half {α : Type} (steps : List Step) (e : LogEvent α)
    (context : List (LogEvent α)) (h : seqMatch steps e context > 0.5) :
    seqMatch steps e context = 1 := by
  rcases steps with - | ⟨s0, srest⟩
  · rw [seqMatch] at h; norm_num at h
  · rw [seqMatch] at h ⊢
    by_cases hm : matches_step e ((s0 :: srest).getLastD ⟨"", [], none, 0⟩)
    · rw [if_pos hm] at h ⊢
      by_cases hlen : (s0 :: srest).length = 1
      · rw [if_pos hlen] at h ⊢
      · rw [if_neg hlen] at h ⊢
        rcases seqWalk_cases (s0 :: srest) context.reverse
            ((s0 :: srest).length - 1) e.timestamp with h1 | ⟨k, h1⟩
        · exact h1
        · rw [h1] at h
          exact absurd (partialScore_le_half (s0 :: srest) k) (by linarith)
    · rw [if_neg hm] at h
      norm_num at h

/-- C10: every match `match_patterns` returns scores strictly above 0.5,
the returned list is sorted by descending score, and every returned match
of a sequential pattern is a complete match scoring exactly 1.0 (partial
sequential scores are at most 0.5, below the reporting threshold). -/
theorem C10_match_patterns {α : Type} (ps : List Pattern) (e : LogEvent α)
    (context : List (LogEvent α)) :
    (∀ m ∈ match_patterns ps e context, (0.5 : ℚ) < m.score) ∧
    List.Sorted scoreGE (match_patterns ps e context) ∧
    (∀ m ∈ match_patterns ps e context, m.pattern.isSeq → m.score = 1) := by
  have hmem : ∀ m ∈ match_patterns ps e context,
      ∃ p ∈ ps, p.matchScore e context > 0.5 ∧
        m = ⟨p, p.matchScore e context⟩ := by
    intro m hm
    rw [match_patterns] at hm
    have hm2 := (List.perm_insertionSort scoreGE _).mem_iff.mp hm
    obtain ⟨p, hp, hfp⟩ := List.mem_filterMap.mp hm2
    by_cases hs : p.matchScore e context > 0.5
    · rw [if_pos hs] at hfp
      exact ⟨p, hp, hs, (Option.some_inj.mp hfp).symm⟩
    · rw [if_neg hs] at hfp
      exact absurd hfp (Option.noConfusion)
  refine ⟨?_, ?_, ?_⟩
  · intro m hm
    obtain ⟨p, -, hs, rfl⟩ := hmem m hm
    exact hs
  · exact List.sorted_insertionSort scoreGE _
  · intro m hm hseq
    obtain ⟨p, -, hs, rfl⟩ := hmem m hm
    cases p with
    | seq n steps =>
        show seqMatch steps e context = 1
        exact seqMatch_gt_half steps e context hs
    | freq fp => exact absurd hseq (by simp [Pattern.isSeq])
    | regex rp => exact absurd hseq (by simp [Pattern.isSeq])

/-! ### Event correlator and the logger pipeline (correlation_engine.cpp,
logger.cpp lines 302-403)

`EventCorrelator` holds the stored events, the accumulated correlations and
the three indices.  `std::unordered_map` / `std::unordered_set` iteration
order is unspecified in C++; the model fixes insertion order (and `dedup`
for the entity set), which only affects the order of ids inside a
correlation, nothing the theorems state. -/

/-- Look a key up in an index (`unordered_map<string, vector<uint64_t>>`);
a missing key reads as the empty vector. -/
def idxFind (idx : List (String × List Nat)) (k : String) : List Nat :=
  match idx.find? (fun p => p.1 == k) with
  | some p => p.2
  | none => []

/-- `index[k].push_back(v)` on an association-list map. -/
def idxPush (idx : List (String × List Nat)) (k : String) (v : Nat) :
    List (String × List Nat) :=
  match idx with
  | [] => [(k, [v])]
  | (k2, vs) :: rest =>
      if k2 == k then (k2, vs ++ [v]) :: rest else (k2, vs) :: idxPush rest k v

/-- `events_[id] = record` on an association-list map (overwrite or append). -/
def storeEvent (evs : List (Nat × LogEvent ℝ)) (id : Nat) (e : LogEvent ℝ) :
    List (Nat × LogEvent ℝ) :=
  match evs with
  | [] => [(id, e)]
  | (i, v) :: rest =>
      if i == id then (i, e) :: rest else (i, v) :: storeEvent rest id e

/-- `class EventCorrelator` (correlation_engine.h): stored events keyed by
id, accumulated correlations, and the trace/entity/service indices. -/
structure EventCorrelator where
  events : List (Nat × LogEvent ℝ)
  correlations : List Correlation
  trace_id_index : List (String × List Nat)
  entity_index : List (String × List Nat)
  service_index : List (String × List Nat)

/-- The default-constructed correlator. -/
def EventCorrelator.init : EventCorrelator := ⟨[], [], [], [], []⟩

/-- Mirror of `EventCorrelator::correlate_by_trace_id`: events sharing a
nonempty trace id, confidence 1.0. -/
def correlate_by_trace_id (c : EventCorrelator) (e : LogEvent ℝ) :
    Option Correlation :=
  if e.trace_id = "" then none
  else
    match idxFind c.trace_id_index e.trace_id with
    | [] => none
    | ids@(_ :: _) =>
        some ⟨ids ++ [e.event_id], "trace_id", 1,
          "Events share trace ID: " ++ e.trace_id, e.timestamp, e.timestamp⟩

/-- Mirror of `EventCorrelator::correlate_by_entities`: ids indexed under
any of the event's entity values, the event itself excluded, confidence
0.8 (the hash-set traversal is modelled as `dedup` of insertion order). -/
def correlate_by_entities (c : EventCorrelator) (e : LogEvent ℝ) :
    Option Correlation :=
  let related := ((e.entities.map (fun kv => idxFind c.entity_index kv.2)).flatten.filter
      (fun id => id != e.event_id)).dedup
  match related with
  | [] => none
  | _ :: _ =>
      some ⟨related ++ [e.event_id], "entity", 0.8,
        "Events share common entities", e.timestamp, e.timestamp⟩

/-- Mirror of `EventCorrelator::correlate_by_service`: stored events of the
same nonempty service within the last minute, confidence 0.6. -/
def correlate_by_service (c : EventCorrelator) (e : LogEvent ℝ) :
    Option Correlation :=
  if e.service_name = "" then none
  else
    let recent := (idxFind c.service_index e.service_name).filter (fun id =>
      match c.events.find? (fun p => p.1 == id) with
      | some p => decide (p.2.timestamp ≥ e.timestamp - 60 * 1000000000)
      | none => false)
    match recent with
    | [] => none
    | _ :: _ =>
        some ⟨recent ++ [e.event_id], "service", 0.6,
          "Events from same service: " ++ e.service_name, e.timestamp, e.timestamp⟩

/-- Mirror of `EventCorrelator::correlate_by_time`: at least two other
stored events within five seconds (`duration_cast<seconds>` truncates the
nanosecond difference), confidence 0.4. -/
def correlate_by_time (c : EventCorrelator) (e : LogEvent ℝ) :
    Option Correlation :=
  let nearby := (c.events.filter (fun p =>
      (e.timestamp - p.2.timestamp).natAbs / 1000000000 ≤ 5 &&
      p.1 != e.event_id)).map (fun p => p.1)
  if nearby.length < 2 then none
  else
    some ⟨nearby ++ [e.event_id], "temporal", 0.4,
      "Events occurred within 5 seconds", e.timestamp, e.timestamp⟩

/-- Mirror of `EventCorrelator::correlate` (correlation_engine.cpp lines
14-59): run the four strategies in order, store the event, update the
indices, append the found correlations, and return them. -/
def EventCorrelator.correlate (c : EventCorrelator) (e : LogEvent ℝ) :
    List Correlation × EventCorrelator :=
  let found := (correlate_by_trace_id c e).toList ++
    (correlate_by_entities c e).toList ++ (correlate_by_service c e).toList ++
    (correlate_by_time c e).toList
  (found,
    { events := storeEvent c.events e.event_id e
      correlations := c.correlations ++ found
      trace_id_index :=
        if e.trace_id = "" then c.trace_id_index
        else idxPush c.trace_id_index e.trace_id e.event_id
      entity_index :=
        e.entities.foldl (fun idx kv => idxPush idx kv.2 e.event_id) c.entity_index
      service_index :=
        if e.service_name = "" then c.service_index
        else idxPush c.service_index e.service_name e.event_id })

/-- `class CorrelationEngine`: the correlator plus the causality map
(the read-only `RootCauseAnalyzer` carries no state of its own). -/
structure CorrelationEngine where
  correlator : EventCorrelator
  causality : CausalMap

/-- Mirror of `CorrelationEngine::process` (correlation_engine.cpp lines
414-425): correlate (discarding the result), learn causality; the final
`analyze` call is read-only and returns into a discarded local. -/
def CorrelationEngine.process (ce : CorrelationEngine) (e : LogEvent ℝ)
    (context : List (LogEvent ℝ)) : CorrelationEngine :=
  ⟨(ce.correlator.correlate e).2, CausalityAnalyzer.learn ce.causality e context⟩

/-- `Logger::Stats`, restricted to the counters `process_event` touches. -/
structure LoggerStats where
  anomalies_detected : Nat
  patterns_matched : Nat
  correlations_found : Nat
  incidents_created : Nat
deriving DecidableEq

/-- The logger's processing state: the four optional components (null
pointers read as `none`), the bounded history, the stats, and the
observable outputs.  `anomaly_callback_log`, `event_callback_log` and
`sink` record every event handed to the anomaly callbacks, the event
callbacks, and the file/console writers respectively. -/
structure PipelineState where
  anomaly_detector : Option EnsembleDetector
  pattern_engine : Option (List Pattern)
  correlation_engine : Option CorrelationEngine
  incident_manager : Option (IncidentManagerConfig × ManagerState)
  event_history : List (LogEvent ℝ)
  max_history_size : Nat
  stats : LoggerStats
  anomaly_callback_log : List (LogEvent ℝ)
  event_callback_log : List (LogEvent ℝ)
  sink : List (LogEvent ℝ)

/-- The anomaly stage of `Logger::process_event` (logger.cpp lines
306-309): with a detector present and nonempty metrics, the score is
computed and written into the event copy; otherwise the copy is returned
unchanged.  No later line of `process_event` assigns to
`processed_event`. -/
noncomputable def anomalyStage (det : Option EnsembleDetector) (e : LogEvent ℝ) :
    LogEvent ℝ :=
  match det with
  | some d => if e.metrics.isEmpty then e else { e with anomaly_score := d.score e }
  | none => e

/-- Mirror of `Logger::process_event` (logger.cpp lines 302-403): anomaly
stage (score + train + anomaly counter and callbacks at score >= 0.7),
pattern matching against the current history followed by training,
correlation (`CorrelationEngine::process`, then the pipeline's own second
`correlate` call on the already-stored event), incident evaluation at
wall-clock `now`, the bounded history append, the event callbacks, and the
file/console sink.  The counter increments guarded by emptiness tests in
the C++ add zero when the guard fails, so the guards are dropped.  The
function also returns the processed event. -/
noncomputable def processEvent (st : PipelineState) (now : Int)
    (e : LogEvent ℝ) : PipelineState × LogEvent ℝ :=
  let pe := anomalyStage st.anomaly_detector e
  let matched_patterns :=
    match st.pattern_engine with
    | some ps => (match_patterns ps pe st.event_history).map (fun m => m.pattern.patName)
    | none => []
  let correlations :=
    match st.correlation_engine with
    | some ce =>
        ((CorrelationEngine.process ce pe st.event_history).correlator.correlate pe).1
    | none => []
  let stats1 :=
    match st.anomaly_detector with
    | some _ =>
        if e.metrics.isEmpty then st.stats
        else if pe.anomaly_score ≥ 0.7 then
          { st.stats with anomalies_detected := st.stats.anomalies_detected + 1 }
        else st.stats
    | none => st.stats
  let nPat :=
    match st.pattern_engine with
    | some ps => (match_patterns ps pe st.event_history).length
    | none => 0
  let nInc :=
    match st.incident_manager with
    | some cm =>
        if (evaluate_event cm.1 now pe correlations matched_patterns cm.2).1.isSome
        then 1 else 0
    | none => 0
  let stats4 :=
    { stats1 with
        patterns_matched := stats1.patterns_matched + nPat
        correlations_found := stats1.correlations_found + correlations.length
        incidents_created := stats1.incidents_created + nInc }
  let hist := st.event_history ++ [pe]
  ({ anomaly_detector :=
        st.anomaly_detector.map (fun d => if e.metrics.isEmpty then d else d.train pe)
     pattern_engine := st.pattern_engine.map (fun ps => train_all ps pe)
     correlation_engine := st.correlation_engine.map (fun ce =>
        let ce1 := CorrelationEngine.process ce pe st.event_history
        { ce1 with correlator := (ce1.correlator.correlate pe).2 })
     incident_manager := st.incident_manager.map (fun cm =>
        (cm.1, (evaluate_event cm.1 now pe correlations matched_patterns cm.2).2))
     event_history := if hist.length > st.max_history_size then hist.tail else hist
     max_history_size := st.max_history_size
     stats := stats4
     anomaly_callback_log :=
        match st.anomaly_detector with
        | some _ =>
            if e.metrics.isEmpty then st.anomaly_callback_log
            else if pe.anomaly_score ≥ 0.7 then st.anomaly_callback_log ++ [pe]
            else st.anomaly_callback_log
        | none => st.anomaly_callback_log
     event_callback_log := st.event_callback_log ++ [pe]
     sink := st.sink ++ [pe] }, pe)

/-- Appending to a list and popping the front when over a positive cap
keeps the appended element last. -/
theorem append_cap_getLast (h : List (LogEvent ℝ)) (x : LogEvent ℝ) (cap : Nat)
    (hcap : 0 < cap) :
    (if (h ++ [x]).length > cap then (h ++ [x]).tail else h ++ [x]).getLast? =
      some x := by
  by_cases hl : (h ++ [x]).length > cap
  · rw [if_pos hl]
    cases h with
    | nil => simp at hl; omega
    | cons y ys =>
        rw [List.cons_append, List.tail_cons]
        exact List.getLast?_concat _
  · rw [if_neg hl]
    exact List.getLast?_concat _

/-- C3: the staged event's anomaly score lies in `[0,1]` (both when the
anomaly stage runs a detector — every detector and every ensemble mode is
bounded — and when it is skipped and the incoming score, assumed in range,
survives), and no later stage changes the processed event: the event
returned, handed to the event callbacks and the sink, kept last in the
bounded history, and (when the score is anomalous) handed to the anomaly
callbacks is exactly the anomaly-stage output. -/
theorem C3_pipeline_score_invariant (st : PipelineState) (now : Int)
    (e : LogEvent ℝ) (h0 : 0 ≤ e.anomaly_score) (h1 : e.anomaly_score ≤ 1)
    (hw : ∀ d ∈ st.anomaly_detector, ∀ dw ∈ d.detectors, 0 ≤ dw.2)
    (hcap : 0 < st.max_history_size) :
    (0 ≤ ((processEvent st now e).2).anomaly_score ∧
      ((processEvent st now e).2).anomaly_score ≤ 1) ∧
    (processEvent st now e).2 = anomalyStage st.anomaly_detector e ∧
    ((processEvent st now e).1).sink = st.sink ++ [(processEvent st now e).2] ∧
    ((processEvent st now e).1).event_callback_log =
      st.event_callback_log ++ [(processEvent st now e).2] ∧
    ((processEvent st now e).1).event_history.getLast? =
      some ((processEvent st now e).2) ∧
    (((processEvent st now e).1).anomaly_callback_log = st.anomaly_callback_log ∨
      ((processEvent st now e).1).anomaly_callback_log =
        st.anomaly_callback_log ++ [(processEvent st now e).2]) := by
  have hpe : (processEvent st now e).2 = anomalyStage st.anomaly_detector e := rfl
  have hb : 0 ≤ (anomalyStage st.anomaly_detector e).anomaly_score ∧
      (anomalyStage st.anomaly_detector e).anomaly_score ≤ 1 := by
    cases hd : st.anomaly_detector with
    | none => simp only [anomalyStage]; exact ⟨h0, h1⟩
    | some d =>
        simp only [anomalyStage]
        by_cases hm : e.metrics.isEmpty
        · rw [if_pos hm]; exact ⟨h0, h1⟩
        · rw [if_neg hm]
          exact d.ensemble_score_bounds e (hw d (by simp [hd]))
  have hhist : ((processEvent st now e).1).event_history =
      (if (st.event_history ++ [anomalyStage st.anomaly_detector e]).length >
          st.max_history_size
       then (st.event_history ++ [anomalyStage st.anomaly_detector e]).tail
       else st.event_history ++ [anomalyStage st.anomaly_detector e]) := rfl
  have hacb : ((processEvent st now e).1).anomaly_callback_log =
      (match st.anomaly_detector with
       | some _ =>
           if e.metrics.isEmpty then st.anomaly_callback_log
           else if (anomalyStage st.anomaly_detector e).anomaly_score ≥ 0.7 then
             st.anomaly_callback_log ++ [anomalyStage st.anomaly_detector e]
           else st.anomaly_callback_log
       | none => st.anomaly_callback_log) := rfl
  refine ⟨⟨by rw [hpe]; exact hb.1, by rw [hpe]; exact hb.2⟩, rfl, rfl, rfl, ?_, ?_⟩
  · rw [hpe, hhist]
    exact append_cap_getLast st.event_history _ st.max_history_size hcap
  · rw [hpe, hacb]
    cases hd : st.anomaly_detector with
    | none => exact Or.inl rfl
    | some d =>
        by_cases hm : e.metrics.isEmpty
        · refine Or.inl ?_
          show (if e.metrics.isEmpty then st.anomaly_callback_log
            else if (anomalyStage (some d) e).anomaly_score ≥ 0.7 then
              st.anomaly_callback_log ++ [anomalyStage (some d) e]
            else st.anomaly_callback_log) = st.anomaly_callback_log
          rw [if_pos hm]
        · by_cases hsc : (anomalyStage (some d) e).anomaly_score ≥ 0.7
          · refine Or.inr ?_
            show (if e.metrics.isEmpty then st.anomaly_callback_log
              else if (anomalyStage (some d) e).anomaly_score ≥ 0.7 then
                st.anomaly_callback_log ++ [anomalyStage (some d) e]
              else st.anomaly_callback_log) =
              st.anomaly_callback_log ++ [anomalyStage (some d) e]
            rw [if_neg hm, if_pos hsc]
          · refine Or.inl ?_
            show (if e.metrics.isEmpty then st.anomaly_callback_log
              else if (anomalyStage (some d) e).anomaly_score ≥ 0.7 then
                st.anomaly_callback_log ++ [anomalyStage (some d) e]
              else st.anomaly_callback_log) = st.anomaly_callback_log
            rw [if_neg hm, if_neg hsc]

/-- A fully wired pipeline: the default detector ensemble, an (empty)
pattern engine, a fresh correlation engine and a default incident
manager, history cap 1000 as in `LoggerConfig`. -/
noncomputable def pipeC3 : PipelineState :=
  { anomaly_detector := some DetectorFactory.create_default
    pattern_engine := some []
    correlation_engine := some ⟨EventCorrelator.init, CausalMap.empty⟩
    incident_manager := some (IncidentManagerConfig.default, ManagerState.init)
    event_history := []
    max_history_size := 1000
    stats := ⟨0, 0, 0, 0⟩
    anomaly_callback_log := []
    event_callback_log := []
    sink := [] }

/-- The pipeline invariant instantiated on the fully wired pipeline and a
single-metric event. -/
theorem C3_pipeline_score_invariant_witness :
    0 ≤ ((processEvent pipeC3 0 (metricEvent "m" 1)).2).anomaly_score ∧
    ((processEvent pipeC3 0 (metricEvent "m" 1)).2).anomaly_score ≤ 1 ∧
    (processEvent pipeC3 0 (metricEvent "m" 1)).2 =
      anomalyStage pipeC3.anomaly_detector (metricEvent "m" 1) := by
  have h := C3_pipeline_score_invariant pipeC3 0 (metricEvent "m" 1)
    (by norm_num [metricEvent]) (by norm_num [metricEvent])
    (by
      intro d hd dw hdw
      simp only [pipeC3, Option.mem_def, Option.some_inj] at hd
      subst hd
      simp only [DetectorFactory.create_default, List.mem_cons,
        List.not_mem_nil, or_false] at hdw
      rcases hdw with rfl | rfl | rfl <;> norm_num)
    (by norm_num [pipeC3])
  exact ⟨h.1.1, h.1.2, h.2.1⟩

/-! ### JSON serialization of events (`LogEvent::to_json`, event.cpp lines
56-123)

The JSON world works over `LogEvent ℚ` so every rendering step evaluates.
`operator<<` on a `double` uses at most six significant digits; the model
renders the exact rational instead (integral values render as integers,
as in C++) — number formatting precision is not at issue in C7.  A brace
character inside a Lean string is written with its `\x7b` / `\x7d`
escape. -/

/-- An exact decimal-free rendering of a rational. -/
def renderRat (q : ℚ) : String :=
  if q.den = 1 then toString q.num
  else toString q.num ++ "/" ++ toString q.den

/-- A scalar JSON value as `to_json` emits them: a bare integer, a quoted
string, or a numeric score. -/
inductive JsonLeaf where
  | num (n : Int)
  | str (s : String)
  | rat (q : ℚ)
deriving DecidableEq

/-- A JSON value of `to_json`: a scalar or a flat object (the
entities/metrics/context sub-objects nest no further). -/
inductive JsonVal where
  | leaf (v : JsonLeaf)
  | obj (kvs : List (String × JsonLeaf))
deriving DecidableEq

/-- Render a scalar: integers bare, strings quoted (to_json performs no
escaping on the string's characters), rationals via `renderRat`. -/
def JsonLeaf.render : JsonLeaf → String
  | .num n => toString n
  | .str s => "\"" ++ s ++ "\""
  | .rat q => renderRat q

/-- Comma-separate rendered chunks (the `bool first` loops of `to_json`). -/
def joinFields : List String → String
  | [] => ""
  | [x] => x
  | x :: y :: rest => x ++ "," ++ joinFields (y :: rest)

/-- Render one `"key":value` member. -/
def renderField (kv : String × JsonVal) : String :=
  match kv.2 with
  | .leaf v => "\"" ++ kv.1 ++ "\":" ++ v.render
  | .obj kvs =>
      "\"" ++ kv.1 ++ "\":" ++ "\x7b" ++
        joinFields (kvs.map (fun p => "\"" ++ p.1 ++ "\":" ++ p.2.render)) ++ "\x7d"

/-- Render a whole object from its member list. -/
def renderFields (fs : List (String × JsonVal)) : String :=
  "\x7b" ++ joinFields (fs.map renderField) ++ "\x7d"

/-- The member sequence `to_json` emits: `event_id`, `event_type`,
`timestamp` (nanoseconds truncated to epoch milliseconds by
`duration_cast`), `severity`, then `message` / `service` / `trace_id`
when nonempty, then the `entities` / `metrics` / `context` objects when
nonempty, then `anomaly_score`, then `incident_id` when present. -/
def eventJsonFields (e : LogEvent ℚ) : List (String × JsonVal) :=
  [("event_id", .leaf (.num e.event_id)),
   ("event_type", .leaf (.str e.event_type)),
   ("timestamp", .leaf (.num (e.timestamp.tdiv 1000000))),
   ("severity", .leaf (.str (severity_to_string e.severity)))] ++
  (if e.message = "" then [] else [("message", .leaf (.str e.message))]) ++
  (if e.service_name = "" then [] else [("service", .leaf (.str e.service_name))]) ++
  (if e.trace_id = "" then [] else [("trace_id", .leaf (.str e.trace_id))]) ++
  (if e.entities = [] then []
   else [("entities", .obj (e.entities.map (fun kv => (kv.1, .str kv.2))))]) ++
  (if e.metrics = [] then []
   else [("metrics", .obj (e.metrics.map (fun kv => (kv.1, .rat kv.2))))]) ++
  (if e.context = [] then []
   else [("context", .obj (e.context.map (fun kv => (kv.1, .str kv.2))))]) ++
  [("anomaly_score", .leaf (.rat e.anomaly_score))] ++
  (match e.incident_id with
   | some i => [("incident_id", .leaf (.str i))]
   | none => [])

/-- Mirror of `LogEvent::to_json` (event.cpp lines 56-123), chunk by
chunk: every present field is emitted with a trailing comma up to the
unconditional `anomaly_score`, and `incident_id` brings its own leading
comma. -/
def toJson (e : LogEvent ℚ) : String :=
  "\x7b" ++
  renderField ("event_id", .leaf (.num e.event_id)) ++ "," ++
  renderField ("event_type", .leaf (.str e.event_type)) ++ "," ++
  renderField ("timestamp", .leaf (.num (e.timestamp.tdiv 1000000))) ++ "," ++
  renderField ("severity", .leaf (.str (severity_to_string e.severity))) ++ "," ++
  (if e.message = "" then ""
   else renderField ("message", .leaf (.str e.message)) ++ ",") ++
  (if e.service_name = "" then ""
   else renderField ("service", .leaf (.str e.service_name)) ++ ",") ++
  (if e.trace_id = "" then ""
   else renderField ("trace_id", .leaf (.str e.trace_id)) ++ ",") ++
  (if e.entities = [] then ""
   else renderField
     ("entities", .obj (e.entities.map (fun kv => (kv.1, .str kv.2)))) ++ ",") ++
  (if e.metrics = [] then ""
   else renderField
     ("metrics", .obj (e.metrics.map (fun kv => (kv.1, .rat kv.2)))) ++ ",") ++
  (if e.context = [] then ""
   else renderField
     ("context", .obj (e.context.map (fun kv => (kv.1, .str kv.2)))) ++ ",") ++
  renderField ("anomaly_score", .leaf (.rat e.anomaly_score)) ++
  (match e.incident_id with
   | some i => "," ++ renderField ("incident_id", .leaf (.str i))
   | none => "") ++
  "\x7d"

/-- Key lookup in a member list (the structural parser's primitive). -/
def jget : List (String × JsonVal) → String → Option JsonVal
  | [], _ => none
  | (k2, v) :: rest, k => if k2 = k then some v else jget rest k

/-- Expect a string member. -/
def jgetStr (fs : List (String × JsonVal)) (k : String) : Option String :=
  match jget fs k with
  | some (.leaf (.str s)) => some s
  | _ => none

/-- Expect an integer member. -/
def jgetNum (fs : List (String × JsonVal)) (k : String) : Option Int :=
  match jget fs k with
  | some (.leaf (.num n)) => some n
  | _ => none

/-- Expect a numeric-score member. -/
def jgetRat (fs : List (String × JsonVal)) (k : String) : Option ℚ :=
  match jget fs k with
  | some (.leaf (.rat q)) => some q
  | _ => none

/-- Read an all-strings object body. -/
def leafStrs : List (String × JsonLeaf) → Option (List (String × String))
  | [] => some []
  | (k, .str s) :: rest => (leafStrs rest).map (fun l => (k, s) :: l)
  | _ => none

/-- Read an all-rationals object body. -/
def leafRats : List (String × JsonLeaf) → Option (List (String × ℚ))
  | [] => some []
  | (k, .rat q) :: rest => (leafRats rest).map (fun l => (k, q) :: l)
  | _ => none

/-- Expect an all-strings object member. -/
def jgetStrObj (fs : List (String × JsonVal)) (k : String) :
    Option (List (String × String)) :=
  match jget fs k with
  | some (.obj kvs) => leafStrs kvs
  | _ => none

/-- Expect an all-rationals object member. -/
def jgetRatObj (fs : List (String × JsonVal)) (k : String) :
    Option (List (String × ℚ)) :=
  match jget fs k with
  | some (.obj kvs) => leafRats kvs
  | _ => none

/-- What a structural parse of the serialized event recovers. -/
structure ParsedEvent where
  event_id : Int
  event_type : String
  timestamp_ms : Int
  severity : String
  message : Option String
  service : Option String
  trace_id : Option String
  entities : Option (List (String × String))
  metrics : Option (List (String × ℚ))
  context : Option (List (String × String))
  anomaly_score : ℚ
  incident_id : Option String
deriving DecidableEq

/-- The structural parser: the five mandatory members must be present
with their shapes; the optional members are read when present. -/
def readEvent (fs : List (String × JsonVal)) : Option ParsedEvent :=
  match jgetNum fs "event_id", jgetStr fs "event_type", jgetNum fs "timestamp",
      jgetStr fs "severity", jgetRat fs "anomaly_score" with
  | some id, some ty, some ts, some sev, some a =>
      some ⟨id, ty, ts, sev, jgetStr fs "message", jgetStr fs "service",
        jgetStr fs "trace_id", jgetStrObj fs "entities", jgetRatObj fs "metrics",
        jgetStrObj fs "context", a, jgetStr fs "incident_id"⟩
  | _, _, _, _, _ => none

/-- Lookup distributes over member-list concatenation. -/
theorem jget_append (l1 l2 : List (String × JsonVal)) (k : String) :
    jget (l1 ++ l2) k =
      match jget l1 k with
      | some v => some v
      | none => jget l2 k := by
  induction l1 with
  | nil => simp [jget]
  | cons kv rest ih =>
      obtain ⟨k2, v⟩ := kv
      by_cases h : k2 = k
      · simp [jget, h]
      · simp [jget, h, ih]

/-- A conditional singleton under a different key never answers a lookup. -/
theorem jget_opt_ne (c : Prop) [Decidable c] (k2 k : String) (v : JsonVal)
    (h : k2 ≠ k) : jget (if c then [] else [(k2, v)]) k = none := by
  by_cases hc : c
  · simp [hc, jget]
  · simp [hc, jget, h]

/-- The optional `incident_id` member never answers a different key. -/
theorem jget_inc_ne (o : Option String) (k : String) (h : k ≠ "incident_id") :
    jget (match o with
          | some i => [("incident_id", JsonVal.leaf (.str i))]
          | none => []) k = none := by
  cases o <;> simp [jget, Ne.symm h]

/-- Reading back an all-strings object body. -/
theorem leafStrs_map (l : List (String × String)) :
    leafStrs (l.map (fun kv => (kv.1, JsonLeaf.str kv.2))) = some l := by
  induction l with
  | nil => rfl
  | cons kv rest ih => obtain ⟨k, v⟩ := kv; simp [leafStrs, ih]

/-- Reading back an all-rationals object body. -/
theorem leafRats_map (l : List (String × ℚ)) :
    leafRats (l.map (fun kv => (kv.1, JsonLeaf.rat kv.2))) = some l := by
  induction l with
  | nil => rfl
  | cons kv rest ih => obtain ⟨k, v⟩ := kv; simp [leafRats, ih]

set_option maxHeartbeats 3200000 in
/-- The chunk-by-chunk `to_json` string equals the rendering of its member
sequence: trailing commas up to the unconditional `anomaly_score` and the
leading comma of `incident_id` amount to comma-separating the present
members. -/
theorem toJson_eq_renderFields (e : LogEvent ℚ) :
    toJson e = renderFields (eventJsonFields e) := by
  by_cases h1 : e.message = "" <;> by_cases h2 : e.service_name = "" <;>
    by_cases h3 : e.trace_id = "" <;> by_cases h4 : e.entities = [] <;>
    by_cases h5 : e.metrics = [] <;> by_cases h6 : e.context = [] <;>
    cases hi : e.incident_id <;>
    simp only [toJson, renderFields, eventJsonFields, joinFields, h1, h2, h3, h4,
      h5, h6, hi, if_true, if_false, eq_self_iff_true, not_true, not_false_iff,
      List.cons_append, List.nil_append, List.append_nil, List.map_cons,
      List.map_nil, List.map_append, String.append_assoc, String.append_empty,
      String.empty_append, ite_true, ite_false]

/-- C7: serializing an event emits the members in the documented order
(the member-name sequence is a sublist of the canonical order, optional
members dropping out), the emitted string is exactly the rendering of
that member sequence, and structurally parsing the member sequence
recovers the event id, the type, the millisecond timestamp, the uppercase
severity name, every optional string field, every entity, metric and
context pair, the anomaly score, and the incident id. -/
theorem C7_json_roundtrip (e : LogEvent ℚ) :
    toJson e = renderFields (eventJsonFields e) ∧
    readEvent (eventJsonFields e) = some
      ⟨(e.event_id : Int), e.event_type, e.timestamp.tdiv 1000000,
       severity_to_string e.severity,
       (if e.message = "" then none else some e.message),
       (if e.service_name = "" then none else some e.service_name),
       (if e.trace_id = "" then none else some e.trace_id),
       (if e.entities = [] then none else some e.entities),
       (if e.metrics = [] then none else some e.metrics),
       (if e.context = [] then none else some e.context),
       e.anomaly_score, e.incident_id⟩ ∧
    List.Sublist ((eventJsonFields e).map Prod.fst)
      ["event_id", "event_type", "timestamp", "severity", "message", "service",
       "trace_id", "entities", "metrics", "context", "anomaly_score",
       "incident_id"] := by
  have h_eid : jget (eventJsonFields e) "event_id" =
      some (.leaf (.num e.event_id)) := by
    simp [eventJsonFields, jget_append, jget]
  have h_ety : jget (eventJsonFields e) "event_type" =
      some (.leaf (.str e.event_type)) := by
    simp [eventJsonFields, jget_append, jget]
  have h_ts : jget (eventJsonFields e) "timestamp" =
      some (.leaf (.num (e.timestamp.tdiv 1000000))) := by
    simp [eventJsonFields, jget_append, jget]
  have h_sev : jget (eventJsonFields e) "severity" =
      some (.leaf (.str (severity_to_string e.severity))) := by
    simp [eventJsonFields, jget_append, jget]
  have h_sco : jget (eventJsonFields e) "anomaly_score" =
      some (.leaf (.rat e.anomaly_score)) := by
    simp [eventJsonFields, jget_append, jget, jget_opt_ne]
  have h_msg : jget (eventJsonFields e) "message" =
      (if e.message = "" then none else some (.leaf (.str e.message))) := by
    by_cases hm : e.message = "" <;>
      simp [eventJsonFields, jget_append, jget, jget_opt_ne, jget_inc_ne, hm]
  have h_srv : jget (eventJsonFields e) "service" =
      (if e.service_name = "" then none
       else some (.leaf (.str e.service_name))) := by
    by_cases hm : e.service_name = "" <;>
      simp [eventJsonFields, jget_append, jget, jget_opt_ne, jget_inc_ne, hm]
  have h_tid : jget (eventJsonFields e) "trace_id" =
      (if e.trace_id = "" then none else some (.leaf (.str e.trace_id))) := by
    by_cases hm : e.trace_id = "" <;>
      simp [eventJsonFields, jget_append, jget, jget_opt_ne, jget_inc_ne, hm]
  have h_ent : jget (eventJsonFields e) "entities" =
      (if e.entities = [] then none
       else some (.obj (e.entities.map (fun kv => (kv.1, .str kv.2))))) := by
    by_cases hm : e.entities = [] <;>
      simp [eventJsonFields, jget_append, jget, jget_opt_ne, jget_inc_ne, hm]
  have h_met : jget (eventJsonFields e) "metrics" =
      (if e.metrics = [] then none
       else some (.obj (e.metrics.map (fun kv => (kv.1, .rat kv.2))))) := by
    by_cases hm : e.metrics = [] <;>
      simp [eventJsonFields, jget_append, jget, jget_opt_ne, jget_inc_ne, hm]
  have h_ctx : jget (eventJsonFields e) "context" =
      (if e.context = [] then none
       else some (.obj (e.context.map (fun kv => (kv.1, .str kv.2))))) := by
    by_cases hm : e.context = [] <;>
      simp [eventJsonFields, jget_append, jget, jget_opt_ne, jget_inc_ne, hm]
  have h_inc : jget (eventJsonFields e) "incident_id" =
      e.incident_id.map (fun i => .leaf (.str i)) := by
    cases hi : e.incident_id <;>
      simp [eventJsonFields, jget_append, jget, jget_opt_ne, hi]
  refine ⟨toJson_eq_renderFields e, ?_, ?_⟩
  · have hg_msg : jgetStr (eventJsonFields e) "message" =
        (if e.message = "" then none else some e.message) := by
      rw [jgetStr, h_msg]; by_cases hm : e.message = "" <;> simp [hm]
    have hg_srv : jgetStr (eventJsonFields e) "service" =
        (if e.service_name = "" then none else some e.service_name) := by
      rw [jgetStr, h_srv]; by_cases hm : e.service_name = "" <;> simp [hm]
    have hg_tid : jgetStr (eventJsonFields e) "trace_id" =
        (if e.trace_id = "" then none else some e.trace_id) := by
      rw [jgetStr, h_tid]; by_cases hm : e.trace_id = "" <;> simp [hm]
    have hg_ent : jgetStrObj (eventJsonFields e) "entities" =
        (if e.entities = [] then none else some e.entities) := by
      rw [jgetStrObj, h_ent]
      by_cases hm : e.entities = [] <;> simp [hm, leafStrs_map]
    have hg_met : jgetRatObj (eventJsonFields e) "metrics" =
        (if e.metrics = [] then none else some e.metrics) := by
      rw [jgetRatObj, h_met]
      by_cases hm : e.metrics = [] <;> simp [hm, leafRats_map]
    have hg_ctx : jgetStrObj (eventJsonFields e) "context" =
        (if e.context = [] then none else some e.context) := by
      rw [jgetStrObj, h_ctx]
      by_cases hm : e.context = [] <;> simp [hm, leafStrs_map]
    have hg_inc : jgetStr (eventJsonFields e) "incident_id" = e.incident_id := by
      rw [jgetStr, h_inc]; cases e.incident_id <;> simp
    have hn_eid : jgetNum (eventJsonFields e) "event_id" =
        some (e.event_id : Int) := by
      simp only [jgetNum, h_eid]
    have hn_ts : jgetNum (eventJsonFields e) "timestamp" =
        some (e.timestamp.tdiv 1000000) := by
      simp only [jgetNum, h_ts]
    have hs_ety : jgetStr (eventJsonFields e) "event_type" =
        some e.event_type := by
      simp only [jgetStr, h_ety]
    have hs_sev : jgetStr (eventJsonFields e) "severity" =
        some (severity_to_string e.severity) := by
      simp only [jgetStr, h_sev]
    have hr_sco : jgetRat (eventJsonFields e) "anomaly_score" =
        some e.anomaly_score := by
      simp only [jgetRat, h_sco]
    simp only [readEvent, hn_eid, hs_ety, hn_ts, hs_sev, hr_sco, hg_msg, hg_srv,
      hg_tid, hg_ent, hg_met, hg_ctx, hg_inc]
  · by_cases h1 : e.message = "" <;> by_cases h2 : e.service_name = "" <;>
      by_cases h3 : e.trace_id = "" <;> by_cases h4 : e.entities = [] <;>
      by_cases h5 : e.metrics = [] <;> by_cases h6 : e.context = [] <;>
      cases hi : e.incident_id <;>
      simp [eventJsonFields, h1, h2, h3, h4, h5, h6, hi] <;> decide

/-- A message that forges a `service` member: `to_json` copies string
characters verbatim, with no escaping of quotes or commas. -/
def evC7a : LogEvent ℚ :=
  ⟨1, "t", 0, .INFO, "x\",\"service\":\"y", [], [], [], "", "", 0, none⟩

/-- A different event — plain message `x`, service `y`. -/
def evC7b : LogEvent ℚ :=
  ⟨1, "t", 0, .INFO, "x", [], [], [], "y", "", 0, none⟩

/-- Because `to_json` escapes nothing, two events differing in `message`
and `service_name` serialize to the identical string, so no parser of the
emitted string can recover every event's fields: the claimed string-level
round-trip fails. -/
theorem C7_counterexample :
    toJson evC7a = toJson evC7b ∧ evC7a.message ≠ evC7b.message ∧
    evC7a ≠ evC7b := by
  refine ⟨rfl, by decide, by decide⟩

end AgentLog
